import Mathlib

/-!
Verification of the schema-validated property-graph store: the Zod schema
serializer (`serializeZodSchema` / `deserializeZodSchema` /
`detectSchemaChanges` in `zod-serializer.ts`), the validator
(`validateData` / `isSchemaChangeSafe` in `validator.ts`), the element and
link stores (`element.ts`, `link.ts`) and the query helpers
(`query-helpers.ts`).

The TypeScript sources are shallowly embedded: JavaScript runtime values
become the inductive `JsValue` (with `undef` modelling `undefined`), Zod
schema objects become the inductive `Zod`, stored JSON schema descriptors
become the mutual inductives `DKind` / `Descriptor` (the three
optional/nullable/default annotations are stored flat on each node, an
absent annotation key being modelled as `false` / `none`, exactly the two
states the serializer ever produces), the async database becomes an
explicit `DB` state threaded through the operations, and thrown `Error`s
become `Except String`.  Timestamps (`createdAt` / `updatedAt`) and the
Drizzle plumbing are outside the embedding; `crypto.randomUUID` is
modelled by a fresh-id counter on the state (only freshness matters to the
code).  The parsing behaviour of the third-party `zod` library
(`schema.safeParse`) is modelled by `zodParse` for the JSON-shaped values
that the store feeds it.
-/

/-- JavaScript runtime values as they appear in this code base: the JSON
values stored in the `data` columns plus `undefined`.  JS numbers are
modelled as integers (no claim touches fractional or NaN behaviour). -/
inductive JsValue where
  | str (s : String)
  | num (n : Int)
  | bool (b : Bool)
  | null
  | undef
  | arr (elems : List JsValue)
  | obj (fields : List (String × JsValue))

/-- JavaScript truthiness of a value: `false`, `0`, the empty string,
`null` and `undefined` are falsy, everything else (including `[]` and
`{}`) is truthy.  This is the semantics of `Boolean(x)` and of `x` used
in a condition. -/
def jsTruthy : JsValue → Bool
  | .str s => !(s == "")
  | .num n => !(n == 0)
  | .bool b => b
  | .null => false
  | .undef => false
  | .arr _ => true
  | .obj _ => true

/-- Truthiness of a possibly-absent value (`Boolean(x)` where `x` may be
`undefined`, modelled as `none`). -/
def optTruthy : Option JsValue → Bool
  | none => false
  | some v => jsTruthy v

mutual
/-- Structural equality of JavaScript values, modelling `===` on
primitives and JSON-text equality (`JSON.stringify(a) === JSON.stringify(b)`)
on composites built by this code (which always builds objects with the
same key order for equal JSON). -/
def jsValueBeq : JsValue → JsValue → Bool
  | .str a, .str b => a == b
  | .num a, .num b => a == b
  | .bool a, .bool b => a == b
  | .null, .null => true
  | .undef, .undef => true
  | .arr a, .arr b => jsValueListBeq a b
  | .obj a, .obj b => jsValueFieldsBeq a b
  | _, _ => false

/-- Elementwise equality of value lists (helper of `jsValueBeq`). -/
def jsValueListBeq : List JsValue → List JsValue → Bool
  | [], [] => true
  | a :: as', b :: bs' => jsValueBeq a b && jsValueListBeq as' bs'
  | _, _ => false

/-- Elementwise equality of object field lists (helper of `jsValueBeq`). -/
def jsValueFieldsBeq : List (String × JsValue) → List (String × JsValue) → Bool
  | [], [] => true
  | (k1, v1) :: as', (k2, v2) :: bs' => k1 == k2 && jsValueBeq v1 v2 && jsValueFieldsBeq as' bs'
  | _, _ => false
end

/-- Membership test of a key in an object's field list, modelling the
JavaScript `key in obj` operator. -/
def keyIn (key : String) (fields : List (String × α)) : Bool :=
  fields.any (fun kv => kv.1 == key)

/-- First-match key lookup in an object's field list, modelling
`obj[key]` (JavaScript objects cannot carry duplicate keys, so first
match is the only match on faithfully-built states). -/
def lookupJs (fields : List (String × α)) (key : String) : Option α :=
  (fields.find? (fun kv => kv.1 == key)).map (fun kv => kv.2)

/-- A single-quote character as a string, used to build the quoted error
messages of the TypeScript source. -/
def quoteChar : String := String.singleton (Char.ofNat 39)

/-- Wrap a string in single quotes the way the source's template literals
do. -/
def q (s : String) : String := quoteChar ++ s ++ quoteChar

mutual
/-- The variant part of a serialized schema descriptor: the value of its
`type` field together with the variant-specific payload fields, as
produced by `serializeZodSchema` (zod-serializer.ts).  The `function`
variant's constant payload (`args: [], returns: {type: "unknown"}`, the
only payload the serializer ever emits and one the deserializer ignores)
is left implicit. -/
inductive DKind where
  | string
  | number
  | boolean
  | date
  | bigint
  | symbol
  | undef
  | null
  | void
  | any
  | unknown
  | never
  | array (element : Descriptor)
  | object (shape : List (String × Descriptor))
  | enum (values : List String)
  | literal (value : JsValue)
  | union (options : List Descriptor)
  | intersection (left right : Descriptor)
  | tuple (items : List Descriptor) (rest : Option Descriptor)
  | record (key value : Descriptor)
  | map (key value : Descriptor)
  | set (value : Descriptor)
  | function
  | lazy
  | promise (inner : Descriptor)

/-- A serialized schema descriptor (`SerializedSchema` in types.ts): a
variant node carrying the three flat annotations `optional`, `nullable`
and `default`.  The serializer writes an annotation key only when it is
`true` / defined, so `false` / `none` model the absent key. -/
inductive Descriptor where
  | mk (kind : DKind) (optional : Bool) (nullable : Bool) (dflt : Option JsValue)
end

/-- The `type`-and-payload part of a descriptor. -/
def Descriptor.kind : Descriptor → DKind
  | .mk k _ _ _ => k

/-- The `optional` annotation of a descriptor. -/
def Descriptor.optional : Descriptor → Bool
  | .mk _ o _ _ => o

/-- The `nullable` annotation of a descriptor. -/
def Descriptor.nullable : Descriptor → Bool
  | .mk _ _ n _ => n

/-- The `default` annotation of a descriptor (`none` = key absent). -/
def Descriptor.dflt : Descriptor → Option JsValue
  | .mk _ _ _ d => d

/-- The spread `{...d, optional: true}` used by the serializer. -/
def Descriptor.setOptional : Descriptor → Descriptor
  | .mk k _ n d => .mk k true n d

/-- The spread `{...d, nullable: true}` used by the serializer. -/
def Descriptor.setNullable : Descriptor → Descriptor
  | .mk k o _ d => .mk k o true d

/-- The spread `{...d, default: v}` used by the serializer. -/
def Descriptor.setDefault (v : JsValue) : Descriptor → Descriptor
  | .mk k o n _ => .mk k o n (some v)

/-- In-code Zod schema values, i.e. the runtime objects built from the
`zod` library's combinators that `serializeZodSchema` inspects with
`instanceof`.  `lazy` stands for any `z.lazy(getter)` (the getter is
opaque to the serializer), and `other` stands for any schema the
serializer has no branch for (effects, refinements, transforms), which it
serializes through its final fallback. -/
inductive Zod where
  | string
  | number
  | boolean
  | date
  | bigint
  | symbol
  | undef
  | null
  | void
  | any
  | unknown
  | never
  | array (element : Zod)
  | object (shape : List (String × Zod))
  | enum (values : List String)
  | literal (value : JsValue)
  | union (options : List Zod)
  | intersection (left right : Zod)
  | tuple (items : List Zod) (rest : Option Zod)
  | record (key value : Zod)
  | map (key value : Zod)
  | set (value : Zod)
  | function
  | lazy
  | promise (inner : Zod)
  | optional (inner : Zod)
  | nullable (inner : Zod)
  | withDefault (value : JsValue) (inner : Zod)
  | other

mutual
/-- Serialize a Zod schema to JSON format for storage
(`serializeZodSchema`, zod-serializer.ts).  Wrapper types are handled
first and flatten their annotation onto the serialized inner node via
object spread; `z.default`'s stored value (the code evaluates a function
default to its value) is written to the `default` key; every other branch
serializes the variant's children structurally, and unhandled schemas
fall back to `{type: "unknown"}`. -/
def serializeZodSchema : Zod → Descriptor
  | .optional s => (serializeZodSchema s).setOptional
  | .nullable s => (serializeZodSchema s).setNullable
  | .withDefault v s => (serializeZodSchema s).setDefault v
  | .string => .mk .string false false none
  | .number => .mk .number false false none
  | .boolean => .mk .boolean false false none
  | .date => .mk .date false false none
  | .bigint => .mk .bigint false false none
  | .symbol => .mk .symbol false false none
  | .undef => .mk .undef false false none
  | .null => .mk .null false false none
  | .void => .mk .void false false none
  | .any => .mk .any false false none
  | .unknown => .mk .unknown false false none
  | .never => .mk .never false false none
  | .array e => .mk (.array (serializeZodSchema e)) false false none
  | .object shape => .mk (.object (serializeShape shape)) false false none
  | .enum vs => .mk (.enum vs) false false none
  | .literal v => .mk (.literal v) false false none
  | .union os => .mk (.union (serializeList os)) false false none
  | .intersection l r =>
    .mk (.intersection (serializeZodSchema l) (serializeZodSchema r)) false false none
  | .tuple items rest =>
    .mk (.tuple (serializeList items) (serializeRest rest)) false false none
  | .record k v => .mk (.record (serializeZodSchema k) (serializeZodSchema v)) false false none
  | .map k v => .mk (.map (serializeZodSchema k) (serializeZodSchema v)) false false none
  | .set v => .mk (.set (serializeZodSchema v)) false false none
  | .function => .mk .function false false none
  | .lazy => .mk .lazy false false none
  | .promise i => .mk (.promise (serializeZodSchema i)) false false none
  | .other => .mk .unknown false false none

/-- Serialization of the entries of a `z.object` shape (the source's
`for (const [key, value] of Object.entries(shape))` loop). -/
def serializeShape : List (String × Zod) → List (String × Descriptor)
  | [] => []
  | (k, v) :: rest => (k, serializeZodSchema v) :: serializeShape rest

/-- Serialization of a list of schemas (the source's `.map` over union
options and tuple items). -/
def serializeList : List Zod → List Descriptor
  | [] => []
  | x :: xs => serializeZodSchema x :: serializeList xs

/-- Serialization of a tuple's optional rest schema. -/
def serializeRest : Option Zod → Option Descriptor
  | none => none
  | some x => some (serializeZodSchema x)
end

mutual
/-- Deserialize JSON back to a Zod schema (`deserializeZodSchema`,
zod-serializer.ts): build the base validator from the `type` field via
the `switch`, then apply the wrapper annotations in the source's fixed
order: `default` (when the key is defined), then `nullable`, then
`optional`. -/
def deserializeZodSchema : Descriptor → Zod
  | .mk k o n dv =>
    let schema := deserializeBase k
    let schema := match dv with
      | some v => Zod.withDefault v schema
      | none => schema
    let schema := if n then Zod.nullable schema else schema
    if o then Zod.optional schema else schema

/-- The `switch (serialized.type)` of `deserializeZodSchema`: the base
validator for a descriptor's variant, ignoring the annotations.
`function` rebuilds a bare `z.function()`, `lazy` falls back to the
permissive `z.any()`, and an unrecognized type falls back to
`z.unknown()`. -/
def deserializeBase : DKind → Zod
  | .string => .string
  | .number => .number
  | .boolean => .boolean
  | .date => .date
  | .bigint => .bigint
  | .symbol => .symbol
  | .undef => .undef
  | .null => .null
  | .void => .void
  | .any => .any
  | .unknown => .unknown
  | .never => .never
  | .array e => .array (deserializeZodSchema e)
  | .object sh => .object (deserializeShape sh)
  | .enum vs => .enum vs
  | .literal v => .literal v
  | .union os => .union (deserializeList os)
  | .intersection l r => .intersection (deserializeZodSchema l) (deserializeZodSchema r)
  | .tuple items rest => .tuple (deserializeList items) (deserializeRest rest)
  | .record k v => .record (deserializeZodSchema k) (deserializeZodSchema v)
  | .map k v => .map (deserializeZodSchema k) (deserializeZodSchema v)
  | .set v => .set (deserializeZodSchema v)
  | .function => .function
  | .lazy => .any
  | .promise i => .promise (deserializeZodSchema i)

/-- Deserialization of an `object` descriptor's shape entries. -/
def deserializeShape : List (String × Descriptor) → List (String × Zod)
  | [] => []
  | (k, v) :: rest => (k, deserializeZodSchema v) :: deserializeShape rest

/-- Deserialization of a list of descriptors (union options, tuple
items). -/
def deserializeList : List Descriptor → List Zod
  | [] => []
  | d :: rest => deserializeZodSchema d :: deserializeList rest

/-- Deserialization of a tuple's optional rest descriptor. -/
def deserializeRest : Option Descriptor → Option Zod
  | none => none
  | some d => some (deserializeZodSchema d)
end

mutual
/-- A descriptor contains no `lazy` node.  `lazy` is the one variant the
deserializer cannot rebuild (it falls back to `z.any()`), so it is the
one variant on which the serialize/deserialize round trip is lossy. -/
def Descriptor.noLazy : Descriptor → Bool
  | .mk k _ _ _ => k.noLazy

/-- Variant-level part of `Descriptor.noLazy`. -/
def DKind.noLazy : DKind → Bool
  | .lazy => false
  | .array e => e.noLazy
  | .object sh => shapeNoLazy sh
  | .union os => listNoLazy os
  | .intersection l r => l.noLazy && r.noLazy
  | .tuple items rest => listNoLazy items && restNoLazy rest
  | .record k v => k.noLazy && v.noLazy
  | .map k v => k.noLazy && v.noLazy
  | .set v => v.noLazy
  | .promise i => i.noLazy
  | _ => true

/-- `noLazy` over a shape's entries. -/
def shapeNoLazy : List (String × Descriptor) → Bool
  | [] => true
  | (_, d) :: rest => d.noLazy && shapeNoLazy rest

/-- `noLazy` over a descriptor list. -/
def listNoLazy : List Descriptor → Bool
  | [] => true
  | d :: rest => d.noLazy && listNoLazy rest

/-- `noLazy` over an optional descriptor. -/
def restNoLazy : Option Descriptor → Bool
  | none => true
  | some d => d.noLazy
end

/-- Applying the `default` annotation to a rebuilt validator, exactly as
the spec words it: "if `default` is present, attach a default-filling
behavior". -/
def specApplyDefault : Option JsValue → Zod → Zod
  | none, s => s
  | some v, s => .withDefault v s

/-- Applying the `nullable` annotation: "if `nullable`, allow null". -/
def specApplyNullable : Bool → Zod → Zod
  | false, s => s
  | true, s => .nullable s

/-- Applying the `optional` annotation: "if `optional`, allow
absence". -/
def specApplyOptional : Bool → Zod → Zod
  | false, s => s
  | true, s => .optional s

mutual
/-- Serializing the validator rebuilt from a variant alone restores that
variant with no annotations, provided no `lazy` node occurs (the `lazy`
variant deserializes to `z.any()` and is lost). -/
theorem serialize_deserializeBase (k : DKind) (h : k.noLazy = true) :
    serializeZodSchema (deserializeBase k) = .mk k false false none := by
  cases k with
  | array e =>
    have ih := serialize_deserialize e (by simpa [DKind.noLazy] using h)
    simp [deserializeBase, serializeZodSchema, ih]
  | object sh =>
    have ih := serialize_deserializeShape sh (by simpa [DKind.noLazy] using h)
    simp [deserializeBase, serializeZodSchema, ih]
  | union os =>
    have ih := serialize_deserializeList os (by simpa [DKind.noLazy] using h)
    simp [deserializeBase, serializeZodSchema, ih]
  | intersection l r =>
    have h' : l.noLazy = true ∧ r.noLazy = true := by
      simpa [DKind.noLazy, Bool.and_eq_true] using h
    have ih1 := serialize_deserialize l h'.1
    have ih2 := serialize_deserialize r h'.2
    simp [deserializeBase, serializeZodSchema, ih1, ih2]
  | tuple items rest =>
    have h' : listNoLazy items = true ∧ restNoLazy rest = true := by
      simpa [DKind.noLazy, Bool.and_eq_true] using h
    have ih1 := serialize_deserializeList items h'.1
    have ih2 := serialize_deserializeRest rest h'.2
    simp [deserializeBase, serializeZodSchema, ih1, ih2]
  | record k v =>
    have h' : k.noLazy = true ∧ v.noLazy = true := by
      simpa [DKind.noLazy, Bool.and_eq_true] using h
    have ih1 := serialize_deserialize k h'.1
    have ih2 := serialize_deserialize v h'.2
    simp [deserializeBase, serializeZodSchema, ih1, ih2]
  | map k v =>
    have h' : k.noLazy = true ∧ v.noLazy = true := by
      simpa [DKind.noLazy, Bool.and_eq_true] using h
    have ih1 := serialize_deserialize k h'.1
    have ih2 := serialize_deserialize v h'.2
    simp [deserializeBase, serializeZodSchema, ih1, ih2]
  | set v =>
    have ih := serialize_deserialize v (by simpa [DKind.noLazy] using h)
    simp [deserializeBase, serializeZodSchema, ih]
  | promise i =>
    have ih := serialize_deserialize i (by simpa [DKind.noLazy] using h)
    simp [deserializeBase, serializeZodSchema, ih]
  | lazy => simp [DKind.noLazy] at h
  | _ => simp [deserializeBase, serializeZodSchema]
  termination_by (sizeOf k, 0)

/-- Serialize after deserialize is the identity on every descriptor with
no `lazy` node: the base variant is restored by
`serialize_deserializeBase` and the three annotation wraps re-flatten to
the same three annotation keys. -/
theorem serialize_deserialize (d : Descriptor) (h : d.noLazy = true) :
    serializeZodSchema (deserializeZodSchema d) = d := by
  cases d with
  | mk k o n dv =>
    have hk := serialize_deserializeBase k (by simpa [Descriptor.noLazy] using h)
    cases o <;> cases n <;> cases dv <;>
      simp [deserializeZodSchema, serializeZodSchema, Descriptor.setOptional,
        Descriptor.setNullable, Descriptor.setDefault, hk]
  termination_by (sizeOf d, 1)

/-- Round trip over the entries of an `object` shape. -/
theorem serialize_deserializeShape (sh : List (String × Descriptor))
    (h : shapeNoLazy sh = true) :
    serializeShape (deserializeShape sh) = sh := by
  match sh with
  | [] => simp [deserializeShape, serializeShape]
  | (k, v) :: rest =>
    have h' : v.noLazy = true ∧ shapeNoLazy rest = true := by
      simpa [shapeNoLazy, Bool.and_eq_true] using h
    have ih1 := serialize_deserialize v h'.1
    have ih2 := serialize_deserializeShape rest h'.2
    simp [deserializeShape, serializeShape, ih1, ih2]
  termination_by (sizeOf sh, 0)

/-- Round trip over a list of descriptors. -/
theorem serialize_deserializeList (l : List Descriptor) (h : listNoLazy l = true) :
    serializeList (deserializeList l) = l := by
  match l with
  | [] => simp [deserializeList, serializeList]
  | d :: rest =>
    have h' : d.noLazy = true ∧ listNoLazy rest = true := by
      simpa [listNoLazy, Bool.and_eq_true] using h
    have ih1 := serialize_deserialize d h'.1
    have ih2 := serialize_deserializeList rest h'.2
    simp [deserializeList, serializeList, ih1, ih2]
  termination_by (sizeOf l, 0)

/-- Round trip over a tuple's optional rest descriptor. -/
theorem serialize_deserializeRest (r : Option Descriptor) (h : restNoLazy r = true) :
    serializeRest (deserializeRest r) = r := by
  match r with
  | none => simp [deserializeRest, serializeRest]
  | some d =>
    have ih := serialize_deserialize d (by simpa [restNoLazy] using h)
    simp [deserializeRest, serializeRest, ih]
  termination_by (sizeOf r, 0)
end

mutual
/-- Structural equality of descriptors, modelling the source's
`JSON.stringify(oldValue) !== JSON.stringify(newValue)` comparison
(which on the canonical, serializer-produced descriptors this code
stores coincides with structural equality). -/
def descriptorBeq : Descriptor → Descriptor → Bool
  | .mk k1 o1 n1 d1, .mk k2 o2 n2 d2 =>
    dkindBeq k1 k2 && o1 == o2 && n1 == n2 && optValueBeq d1 d2

/-- Variant-level part of `descriptorBeq`. -/
def dkindBeq : DKind → DKind → Bool
  | .string, .string => true
  | .number, .number => true
  | .boolean, .boolean => true
  | .date, .date => true
  | .bigint, .bigint => true
  | .symbol, .symbol => true
  | .undef, .undef => true
  | .null, .null => true
  | .void, .void => true
  | .any, .any => true
  | .unknown, .unknown => true
  | .never, .never => true
  | .array a, .array b => descriptorBeq a b
  | .object a, .object b => shapeBeq a b
  | .enum a, .enum b => a == b
  | .literal a, .literal b => jsValueBeq a b
  | .union a, .union b => descriptorListBeq a b
  | .intersection a1 a2, .intersection b1 b2 => descriptorBeq a1 b1 && descriptorBeq a2 b2
  | .tuple a1 a2, .tuple b1 b2 => descriptorListBeq a1 b1 && optDescriptorBeq a2 b2
  | .record a1 a2, .record b1 b2 => descriptorBeq a1 b1 && descriptorBeq a2 b2
  | .map a1 a2, .map b1 b2 => descriptorBeq a1 b1 && descriptorBeq a2 b2
  | .set a, .set b => descriptorBeq a b
  | .function, .function => true
  | .lazy, .lazy => true
  | .promise a, .promise b => descriptorBeq a b
  | _, _ => false

/-- Equality of shape entry lists (helper of `dkindBeq`). -/
def shapeBeq : List (String × Descriptor) → List (String × Descriptor) → Bool
  | [], [] => true
  | (k1, v1) :: as', (k2, v2) :: bs' => k1 == k2 && descriptorBeq v1 v2 && shapeBeq as' bs'
  | _, _ => false

/-- Equality of descriptor lists (helper of `dkindBeq`). -/
def descriptorListBeq : List Descriptor → List Descriptor → Bool
  | [], [] => true
  | a :: as', b :: bs' => descriptorBeq a b && descriptorListBeq as' bs'
  | _, _ => false

/-- Equality of optional descriptors (helper of `dkindBeq`). -/
def optDescriptorBeq : Option Descriptor → Option Descriptor → Bool
  | none, none => true
  | some a, some b => descriptorBeq a b
  | _, _ => false

/-- Equality of optional values (the flat `default` annotations of two
descriptors under `JSON.stringify`). -/
def optValueBeq : Option JsValue → Option JsValue → Bool
  | none, none => true
  | some a, some b => jsValueBeq a b
  | _, _ => false
end

/-- The `type` tag of a schema change (`"added" | "removed" |
"changed"`). -/
inductive ChangeType where
  | added
  | removed
  | changed
  deriving DecidableEq

/-- One entry of `detectSchemaChanges`' result (`SchemaChange` in
types.ts).  `required` and `hasDefault` are optional in the TypeScript
type and absent on `removed` entries; since every consumer reads them
with JavaScript truthiness, the absent key is modelled as `false`. -/
structure SchemaChange where
  type : ChangeType
  field : String
  required : Bool := false
  hasDefault : Bool := false

/-- Detect changes between two schemas (`detectSchemaChanges`,
zod-serializer.ts).  Non-object comparisons yield an empty list; then
three passes over the object shapes collect `added` fields (in the new
shape only), `removed` fields (in the old shape only), and `changed`
fields (in both, but serializing to different JSON).  For `added` and
`changed` entries, `required` is the negation of the field's `optional`
annotation and `hasDefault` is `Boolean(field.default)` — the JavaScript
truthiness of the default. -/
def detectSchemaChanges (oldSchema newSchema : Descriptor) : List SchemaChange :=
  match oldSchema.kind, newSchema.kind with
  | .object oldShape, .object newShape =>
    let added := newShape.filterMap (fun kv =>
      if keyIn kv.1 oldShape then none
      else some { type := .added, field := kv.1,
                  required := !kv.2.optional, hasDefault := optTruthy kv.2.dflt })
    let removed := oldShape.filterMap (fun kv =>
      if keyIn kv.1 newShape then none
      else some { type := .removed, field := kv.1 })
    let changed := newShape.filterMap (fun kv =>
      if keyIn kv.1 oldShape then
        match lookupJs oldShape kv.1 with
        | some oldValue =>
          if descriptorBeq oldValue kv.2 then none
          else some { type := .changed, field := kv.1,
                      required := !kv.2.optional, hasDefault := optTruthy kv.2.dflt }
        | none => none
      else none)
    added ++ removed ++ changed
  | _, _ => []

/-- The result of the schema-change safety judgment. -/
structure SafetyResult where
  safe : Bool
  reason : Option String := none

/-- The per-change condition on which `isSchemaChangeSafe`'s loop returns
an unsafe result: an `added` or `changed` entry that is required and has
no default. -/
def unsafeChange (c : SchemaChange) : Bool :=
  (c.type == .added || c.type == .changed) && c.required && !c.hasDefault

/-- The reason string `isSchemaChangeSafe` builds for an offending
change, naming the offending field. -/
def unsafeReason (c : SchemaChange) (elementCount : Nat) : String :=
  if c.type == .added then
    "Cannot add required field " ++ q c.field ++ " without default value when "
      ++ toString elementCount ++ " elements exist"
  else
    "Cannot make field " ++ q c.field ++ " required without default value when "
      ++ toString elementCount ++ " elements exist"

/-- Check if a schema change is safe (`isSchemaChangeSafe`,
validator.ts): if no elements exist any change is safe; otherwise the
loop returns unsafe, with a reason naming the field, at the first
`added` or `changed` entry that is required without a default, and safe
if no such entry exists. -/
def isSchemaChangeSafe (changes : List SchemaChange) (elementCount : Nat) : SafetyResult :=
  if elementCount = 0 then { safe := true }
  else
    match changes.find? unsafeChange with
    | some c => { safe := false, reason := some (unsafeReason c elementCount) }
    | none => { safe := true }

/-- One issue of a failed zod parse: the field path and the message.
`validateData` formats these as `path.join(".") + ": " + message`. -/
structure ZodIssue where
  path : List String
  message : String

/-- The runtime type name zod reports for a received value. -/
def typeNameOf : JsValue → String
  | .str _ => "string"
  | .num _ => "number"
  | .bool _ => "boolean"
  | .null => "null"
  | .undef => "undefined"
  | .arr _ => "array"
  | .obj _ => "object"

/-- The `invalid_type` issue zod raises at the current path. -/
def invalidType (expected : String) (v : JsValue) : ZodIssue :=
  ⟨[], "Expected " ++ expected ++ ", received " ++ typeNameOf v⟩

/-- Prepend a path segment (object key or array index) to an issue's
path, as zod does when descending into a child. -/
def prefixPath (p : String) (i : ZodIssue) : ZodIssue :=
  ⟨p :: i.path, i.message⟩

mutual
/-- Model of `schema.safeParse(value)` from the third-party `zod`
library, for the JSON-shaped values (`JsValue`) this repository feeds
it: success returns the parsed (transformed) value, failure returns the
collected issues.  Wrapper semantics follow zod v3: `optional` passes
`undefined` through, `nullable` passes `null` through, `default`
substitutes its value for `undefined` and parses the substitute;
`object` strips unknown keys and includes a known key in the output when
its parsed value is defined or the key was present; `date`, `bigint`,
`symbol`, `function`, `promise`, `map` and `set` reject every JSON
value, since no JSON value is an instance of those runtime types.  Two
zod behaviours no stored schema of this repository can reach are
simplified: intersection results are merged only when equal (zod would
also deep-merge objects), and `lazy` / unserializable (`other`) schemas
accept their input (their real behaviour lives in runtime closures the
serialized form cannot carry — `deserializeZodSchema` never rebuilds
either). -/
def zodParse : Zod → JsValue → Except (List ZodIssue) JsValue
  | .string, v =>
    match v with
    | .str s => .ok (.str s)
    | _ => .error [invalidType "string" v]
  | .number, v =>
    match v with
    | .num n => .ok (.num n)
    | _ => .error [invalidType "number" v]
  | .boolean, v =>
    match v with
    | .bool b => .ok (.bool b)
    | _ => .error [invalidType "boolean" v]
  | .date, v => .error [invalidType "date" v]
  | .bigint, v => .error [invalidType "bigint" v]
  | .symbol, v => .error [invalidType "symbol" v]
  | .undef, v =>
    match v with
    | .undef => .ok .undef
    | _ => .error [invalidType "undefined" v]
  | .null, v =>
    match v with
    | .null => .ok .null
    | _ => .error [invalidType "null" v]
  | .void, v =>
    match v with
    | .undef => .ok .undef
    | _ => .error [invalidType "void" v]
  | .any, v => .ok v
  | .unknown, v => .ok v
  | .never, v => .error [invalidType "never" v]
  | .array e, v =>
    match v with
    | .arr xs =>
      let (issues, vals) := zodParseElems e xs 0
      if issues.isEmpty then .ok (.arr vals) else .error issues
    | _ => .error [invalidType "array" v]
  | .object shape, v =>
    match v with
    | .obj fields =>
      let (issues, out) := zodParseShape shape fields
      if issues.isEmpty then .ok (.obj out) else .error issues
    | _ => .error [invalidType "object" v]
  | .enum vs, v =>
    match v with
    | .str s => if vs.contains s then .ok (.str s) else .error [⟨[], "Invalid enum value"⟩]
    | _ => .error [⟨[], "Invalid enum value"⟩]
  | .literal lv, v =>
    if jsValueBeq v lv then .ok v else .error [⟨[], "Invalid literal value"⟩]
  | .union os, v =>
    match zodParseUnion os v with
    | some r => .ok r
    | none => .error [⟨[], "Invalid input"⟩]
  | .intersection l r, v =>
    match zodParse l v, zodParse r v with
    | .ok a, .ok b =>
      if jsValueBeq a b then .ok a
      else .error [⟨[], "Intersection results could not be merged"⟩]
    | .error i1, .error i2 => .error (i1 ++ i2)
    | .error i1, .ok _ => .error i1
    | .ok _, .error i2 => .error i2
  | .tuple items rest, v =>
    match v with
    | .arr xs =>
      if xs.length < items.length then
        .error [⟨[], "Array must contain at least " ++ toString items.length
          ++ " element(s)"⟩]
      else
        match rest with
        | none =>
          if items.length < xs.length then
            .error [⟨[], "Array must contain at most " ++ toString items.length
              ++ " element(s)"⟩]
          else
            let (issues, vals) := zodParseTuple items xs 0
            if issues.isEmpty then .ok (.arr vals) else .error issues
        | some r =>
          let (issues, vals) := zodParseTuple items xs 0
          let (issues2, vals2) := zodParseElems r (xs.drop items.length) items.length
          if (issues ++ issues2).isEmpty then .ok (.arr (vals ++ vals2))
          else .error (issues ++ issues2)
    | _ => .error [invalidType "array" v]
  | .record kSch vSch, v =>
    match v with
    | .obj fields =>
      let (issues, out) := zodParseRecordFields kSch vSch fields
      if issues.isEmpty then .ok (.obj out) else .error issues
    | _ => .error [invalidType "object" v]
  | .map _ _, v => .error [invalidType "map" v]
  | .set _, v => .error [invalidType "set" v]
  | .function, v => .error [invalidType "function" v]
  | .promise _, v => .error [invalidType "promise" v]
  | .lazy, v => .ok v
  | .optional inner, v =>
    match v with
    | .undef => .ok .undef
    | _ => zodParse inner v
  | .nullable inner, v =>
    match v with
    | .null => .ok .null
    | _ => zodParse inner v
  | .withDefault dv inner, v =>
    match v with
    | .undef => zodParse inner dv
    | _ => zodParse inner v
  | .other, v => .ok v
  termination_by s v => (sizeOf s, sizeOf v)

/-- Parse each element of an array against the element schema,
collecting every issue (prefixed with its index) and the parsed
values. -/
def zodParseElems (e : Zod) (xs : List JsValue) (idx : Nat) :
    List ZodIssue × List JsValue :=
  match xs with
  | [] => ([], [])
  | x :: rest =>
    let (restIssues, restVals) := zodParseElems e rest (idx + 1)
    match zodParse e x with
    | .ok pv => (restIssues, pv :: restVals)
    | .error is' => (is'.map (prefixPath (toString idx)) ++ restIssues, restVals)
  termination_by (sizeOf e, sizeOf xs)

/-- Parse an object's declared shape against its fields: each declared
key's value (or `undefined` when absent) is parsed by the field schema;
issues are prefixed with the key; a key enters the output when its
parsed value is defined or the key was present; unknown keys are
stripped. -/
def zodParseShape (shape : List (String × Zod)) (fields : List (String × JsValue)) :
    List ZodIssue × List (String × JsValue) :=
  match shape with
  | [] => ([], [])
  | (key, sch) :: rest =>
    let vv := match lookupJs fields key with
      | some v => v
      | none => .undef
    let (restIssues, restOut) := zodParseShape rest fields
    match zodParse sch vv with
    | .ok pv =>
      let includeKey := match pv with
        | .undef => keyIn key fields
        | _ => true
      (restIssues, if includeKey then (key, pv) :: restOut else restOut)
    | .error is' => (is'.map (prefixPath key) ++ restIssues, restOut)
  termination_by (sizeOf shape, 0)

/-- Try each union option in order; the first success wins. -/
def zodParseUnion (os : List Zod) (v : JsValue) : Option JsValue :=
  match os with
  | [] => none
  | o :: rest =>
    match zodParse o v with
    | .ok r => some r
    | .error _ => zodParseUnion rest v
  termination_by (sizeOf os, sizeOf v)

/-- Parse a tuple's fixed items pairwise against an array's leading
elements. -/
def zodParseTuple (items : List Zod) (xs : List JsValue) (idx : Nat) :
    List ZodIssue × List JsValue :=
  match items, xs with
  | i :: irest, x :: xrest =>
    let (restIssues, restVals) := zodParseTuple irest xrest (idx + 1)
    match zodParse i x with
    | .ok pv => (restIssues, pv :: restVals)
    | .error is' => (is'.map (prefixPath (toString idx)) ++ restIssues, restVals)
  | _, _ => ([], [])
  termination_by (sizeOf items, 0)

/-- Parse every field of a record value: the key by the key schema, the
value by the value schema. -/
def zodParseRecordFields (kSch vSch : Zod) (fields : List (String × JsValue)) :
    List ZodIssue × List (String × JsValue) :=
  match fields with
  | [] => ([], [])
  | (key, val) :: rest =>
    let (restIssues, restOut) := zodParseRecordFields kSch vSch rest
    let keyIssues := match zodParse kSch (.str key) with
      | .ok _ => []
      | .error is' => is'.map (prefixPath key)
    match zodParse vSch val with
    | .ok pv => (keyIssues ++ restIssues, (key, pv) :: restOut)
    | .error is' => (keyIssues ++ is'.map (prefixPath key) ++ restIssues, restOut)
  termination_by (1 + sizeOf kSch + sizeOf vSch, sizeOf fields)
end

/-!
The `zodParse` family is compiled by well-founded recursion, which the
kernel cannot reduce on concrete inputs.  The `...Eval` functions below
are fuel-indexed structural mirrors of the same case analyses (`none` =
out of fuel), which the kernel evaluates directly; the `..._sound`
lemmas transfer every concrete evaluation back to `zodParse` itself.
-/

mutual
/-- Fuel-indexed structural mirror of `zodParse`. -/
def zodParseEval : Nat → Zod → JsValue → Option (Except (List ZodIssue) JsValue)
  | 0, _, _ => none
  | fuel + 1, s, v =>
    match s, v with
    | .string, v =>
      some (match v with
        | .str s' => .ok (.str s')
        | _ => .error [invalidType "string" v])
    | .number, v =>
      some (match v with
        | .num n => .ok (.num n)
        | _ => .error [invalidType "number" v])
    | .boolean, v =>
      some (match v with
        | .bool b => .ok (.bool b)
        | _ => .error [invalidType "boolean" v])
    | .date, v => some (.error [invalidType "date" v])
    | .bigint, v => some (.error [invalidType "bigint" v])
    | .symbol, v => some (.error [invalidType "symbol" v])
    | .undef, v =>
      some (match v with
        | .undef => .ok .undef
        | _ => .error [invalidType "undefined" v])
    | .null, v =>
      some (match v with
        | .null => .ok .null
        | _ => .error [invalidType "null" v])
    | .void, v =>
      some (match v with
        | .undef => .ok .undef
        | _ => .error [invalidType "void" v])
    | .any, v => some (.ok v)
    | .unknown, v => some (.ok v)
    | .never, v => some (.error [invalidType "never" v])
    | .array e, v =>
      match v with
      | .arr xs =>
        match zodParseElemsEval fuel e xs 0 with
        | some iv =>
          some (if iv.1.isEmpty then .ok (.arr iv.2) else .error iv.1)
        | none => none
      | _ => some (.error [invalidType "array" v])
    | .object shape, v =>
      match v with
      | .obj fields =>
        match zodParseShapeEval fuel shape fields with
        | some io =>
          some (if io.1.isEmpty then .ok (.obj io.2) else .error io.1)
        | none => none
      | _ => some (.error [invalidType "object" v])
    | .enum vs, v =>
      some (match v with
        | .str s' =>
          if vs.contains s' then .ok (.str s') else .error [⟨[], "Invalid enum value"⟩]
        | _ => .error [⟨[], "Invalid enum value"⟩])
    | .literal lv, v =>
      some (if jsValueBeq v lv then .ok v else .error [⟨[], "Invalid literal value"⟩])
    | .union os, v =>
      match zodParseUnionEval fuel os v with
      | some (some r) => some (.ok r)
      | some none => some (.error [⟨[], "Invalid input"⟩])
      | none => none
    | .intersection l r, v =>
      match zodParseEval fuel l v, zodParseEval fuel r v with
      | some pl, some pr =>
        some (match pl, pr with
          | .ok a, .ok b =>
            if jsValueBeq a b then .ok a
            else .error [⟨[], "Intersection results could not be merged"⟩]
          | .error i1, .error i2 => .error (i1 ++ i2)
          | .error i1, .ok _ => .error i1
          | .ok _, .error i2 => .error i2)
      | _, _ => none
    | .tuple items rest, v =>
      match v with
      | .arr xs =>
        if xs.length < items.length then
          some (.error [⟨[], "Array must contain at least " ++ toString items.length
            ++ " element(s)"⟩])
        else
          match rest with
          | none =>
            if items.length < xs.length then
              some (.error [⟨[], "Array must contain at most " ++ toString items.length
                ++ " element(s)"⟩])
            else
              match zodParseTupleEval fuel items xs 0 with
              | some iv =>
                some (if iv.1.isEmpty then .ok (.arr iv.2) else .error iv.1)
              | none => none
          | some r =>
            match zodParseTupleEval fuel items xs 0,
                zodParseElemsEval fuel r (xs.drop items.length) items.length with
            | some iv1, some iv2 =>
              some (if (iv1.1 ++ iv2.1).isEmpty then .ok (.arr (iv1.2 ++ iv2.2))
                else .error (iv1.1 ++ iv2.1))
            | _, _ => none
      | _ => some (.error [invalidType "array" v])
    | .record kSch vSch, v =>
      match v with
      | .obj fields =>
        match zodParseRecordFieldsEval fuel kSch vSch fields with
        | some io =>
          some (if io.1.isEmpty then .ok (.obj io.2) else .error io.1)
        | none => none
      | _ => some (.error [invalidType "object" v])
    | .map _ _, v => some (.error [invalidType "map" v])
    | .set _, v => some (.error [invalidType "set" v])
    | .function, v => some (.error [invalidType "function" v])
    | .promise _, v => some (.error [invalidType "promise" v])
    | .lazy, v => some (.ok v)
    | .optional inner, v =>
      match v with
      | .undef => some (.ok .undef)
      | _ => zodParseEval fuel inner v
    | .nullable inner, v =>
      match v with
      | .null => some (.ok .null)
      | _ => zodParseEval fuel inner v
    | .withDefault dv inner, v =>
      match v with
      | .undef => zodParseEval fuel inner dv
      | _ => zodParseEval fuel inner v
    | .other, v => some (.ok v)

/-- Fuel-indexed structural mirror of `zodParseElems`. -/
def zodParseElemsEval : Nat → Zod → List JsValue → Nat →
    Option (List ZodIssue × List JsValue)
  | 0, _, _, _ => none
  | fuel + 1, e, xs, idx =>
    match xs with
    | [] => some ([], [])
    | x :: rest =>
      match zodParseElemsEval fuel e rest (idx + 1), zodParseEval fuel e x with
      | some riv, some pr =>
        some (match pr with
          | .ok pv => (riv.1, pv :: riv.2)
          | .error is' => (is'.map (prefixPath (toString idx)) ++ riv.1, riv.2))
      | _, _ => none

/-- Fuel-indexed structural mirror of `zodParseShape`. -/
def zodParseShapeEval : Nat → List (String × Zod) → List (String × JsValue) →
    Option (List ZodIssue × List (String × JsValue))
  | 0, _, _ => none
  | fuel + 1, shape, fields =>
    match shape with
    | [] => some ([], [])
    | (key, sch) :: rest =>
      let vv := match lookupJs fields key with
        | some v => v
        | none => .undef
      match zodParseShapeEval fuel rest fields, zodParseEval fuel sch vv with
      | some rio, some pr =>
        some (match pr with
          | .ok pv =>
            let includeKey := match pv with
              | .undef => keyIn key fields
              | _ => true
            (rio.1, if includeKey then (key, pv) :: rio.2 else rio.2)
          | .error is' => (is'.map (prefixPath key) ++ rio.1, rio.2))
      | _, _ => none

/-- Fuel-indexed structural mirror of `zodParseUnion`. -/
def zodParseUnionEval : Nat → List Zod → JsValue → Option (Option JsValue)
  | 0, _, _ => none
  | fuel + 1, os, v =>
    match os with
    | [] => some none
    | o :: rest =>
      match zodParseEval fuel o v with
      | some (.ok r) => some (some r)
      | some (.error _) => zodParseUnionEval fuel rest v
      | none => none

/-- Fuel-indexed structural mirror of `zodParseTuple`. -/
def zodParseTupleEval : Nat → List Zod → List JsValue → Nat →
    Option (List ZodIssue × List JsValue)
  | 0, _, _, _ => none
  | fuel + 1, items, xs, idx =>
    match items, xs with
    | i :: irest, x :: xrest =>
      match zodParseTupleEval fuel irest xrest (idx + 1), zodParseEval fuel i x with
      | some riv, some pr =>
        some (match pr with
          | .ok pv => (riv.1, pv :: riv.2)
          | .error is' => (is'.map (prefixPath (toString idx)) ++ riv.1, riv.2))
      | _, _ => none
    | _, _ => some ([], [])

/-- Fuel-indexed structural mirror of `zodParseRecordFields`. -/
def zodParseRecordFieldsEval : Nat → Zod → Zod → List (String × JsValue) →
    Option (List ZodIssue × List (String × JsValue))
  | 0, _, _, _ => none
  | fuel + 1, kSch, vSch, fields =>
    match fields with
    | [] => some ([], [])
    | (key, val) :: rest =>
      match zodParseRecordFieldsEval fuel kSch vSch rest,
          zodParseEval fuel kSch (.str key), zodParseEval fuel vSch val with
      | some rio, some kr, some vr =>
        let keyIssues := match kr with
          | .ok _ => []
          | .error is' => is'.map (prefixPath key)
        some (match vr with
          | .ok pv => (keyIssues ++ rio.1, (key, pv) :: rio.2)
          | .error is' => (keyIssues ++ is'.map (prefixPath key) ++ rio.1, rio.2))
      | _, _, _ => none
end

set_option maxHeartbeats 2000000 in
mutual
/-- Every result of the fuel-indexed evaluator is the result of
`zodParse` itself. -/
theorem zodParseEval_sound (fuel : Nat) (s : Zod) (v : JsValue)
    (r : Except (List ZodIssue) JsValue) (h : zodParseEval fuel s v = some r) :
    zodParse s v = r := by
  match fuel with
  | 0 => simp [zodParseEval] at h
  | fuel + 1 =>
    cases s with
    | string => cases v <;> (simp only [zodParseEval] at h; simp only [zodParse]; exact Option.some.inj h)
    | number => cases v <;> (simp only [zodParseEval] at h; simp only [zodParse]; exact Option.some.inj h)
    | boolean => cases v <;> (simp only [zodParseEval] at h; simp only [zodParse]; exact Option.some.inj h)
    | date => cases v <;> (simp only [zodParseEval] at h; simp only [zodParse]; exact Option.some.inj h)
    | bigint => cases v <;> (simp only [zodParseEval] at h; simp only [zodParse]; exact Option.some.inj h)
    | symbol => cases v <;> (simp only [zodParseEval] at h; simp only [zodParse]; exact Option.some.inj h)
    | undef => cases v <;> (simp only [zodParseEval] at h; simp only [zodParse]; exact Option.some.inj h)
    | null => cases v <;> (simp only [zodParseEval] at h; simp only [zodParse]; exact Option.some.inj h)
    | void => cases v <;> (simp only [zodParseEval] at h; simp only [zodParse]; exact Option.some.inj h)
    | any => cases v <;> (simp only [zodParseEval] at h; simp only [zodParse]; exact Option.some.inj h)
    | unknown => cases v <;> (simp only [zodParseEval] at h; simp only [zodParse]; exact Option.some.inj h)
    | never => cases v <;> (simp only [zodParseEval] at h; simp only [zodParse]; exact Option.some.inj h)
    | enum vs => cases v <;> (simp only [zodParseEval] at h; simp only [zodParse]; exact Option.some.inj h)
    | literal lv => cases v <;> (simp only [zodParseEval] at h; simp only [zodParse]; exact Option.some.inj h)
    | map k1 v1 => cases v <;> (simp only [zodParseEval] at h; simp only [zodParse]; exact Option.some.inj h)
    | set v1 => cases v <;> (simp only [zodParseEval] at h; simp only [zodParse]; exact Option.some.inj h)
    | function => cases v <;> (simp only [zodParseEval] at h; simp only [zodParse]; exact Option.some.inj h)
    | promise i => cases v <;> (simp only [zodParseEval] at h; simp only [zodParse]; exact Option.some.inj h)
    | lazy => cases v <;> (simp only [zodParseEval] at h; simp only [zodParse]; exact Option.some.inj h)
    | other => cases v <;> (simp only [zodParseEval] at h; simp only [zodParse]; exact Option.some.inj h)
    | optional inner =>
      cases v with
      | undef => simp only [zodParseEval] at h; simp only [zodParse]; exact Option.some.inj h
      | str a => simp only [zodParseEval] at h; simp only [zodParse]; exact zodParseEval_sound fuel inner (.str a) r h
      | num a => simp only [zodParseEval] at h; simp only [zodParse]; exact zodParseEval_sound fuel inner (.num a) r h
      | bool a => simp only [zodParseEval] at h; simp only [zodParse]; exact zodParseEval_sound fuel inner (.bool a) r h
      | null => simp only [zodParseEval] at h; simp only [zodParse]; exact zodParseEval_sound fuel inner .null r h
      | arr a => simp only [zodParseEval] at h; simp only [zodParse]; exact zodParseEval_sound fuel inner (.arr a) r h
      | obj a => simp only [zodParseEval] at h; simp only [zodParse]; exact zodParseEval_sound fuel inner (.obj a) r h
    | nullable inner =>
      cases v with
      | null => simp only [zodParseEval] at h; simp only [zodParse]; exact Option.some.inj h
      | str a => simp only [zodParseEval] at h; simp only [zodParse]; exact zodParseEval_sound fuel inner (.str a) r h
      | num a => simp only [zodParseEval] at h; simp only [zodParse]; exact zodParseEval_sound fuel inner (.num a) r h
      | bool a => simp only [zodParseEval] at h; simp only [zodParse]; exact zodParseEval_sound fuel inner (.bool a) r h
      | undef => simp only [zodParseEval] at h; simp only [zodParse]; exact zodParseEval_sound fuel inner .undef r h
      | arr a => simp only [zodParseEval] at h; simp only [zodParse]; exact zodParseEval_sound fuel inner (.arr a) r h
      | obj a => simp only [zodParseEval] at h; simp only [zodParse]; exact zodParseEval_sound fuel inner (.obj a) r h
    | withDefault dv inner =>
      cases v with
      | undef => simp only [zodParseEval] at h; simp only [zodParse]; exact zodParseEval_sound fuel inner dv r h
      | str a => simp only [zodParseEval] at h; simp only [zodParse]; exact zodParseEval_sound fuel inner (.str a) r h
      | num a => simp only [zodParseEval] at h; simp only [zodParse]; exact zodParseEval_sound fuel inner (.num a) r h
      | bool a => simp only [zodParseEval] at h; simp only [zodParse]; exact zodParseEval_sound fuel inner (.bool a) r h
      | null => simp only [zodParseEval] at h; simp only [zodParse]; exact zodParseEval_sound fuel inner .null r h
      | arr a => simp only [zodParseEval] at h; simp only [zodParse]; exact zodParseEval_sound fuel inner (.arr a) r h
      | obj a => simp only [zodParseEval] at h; simp only [zodParse]; exact zodParseEval_sound fuel inner (.obj a) r h
    | array e =>
      cases v with
      | str a => simp only [zodParseEval] at h; simp only [zodParse]; exact Option.some.inj h
      | num a => simp only [zodParseEval] at h; simp only [zodParse]; exact Option.some.inj h
      | bool a => simp only [zodParseEval] at h; simp only [zodParse]; exact Option.some.inj h
      | null => simp only [zodParseEval] at h; simp only [zodParse]; exact Option.some.inj h
      | undef => simp only [zodParseEval] at h; simp only [zodParse]; exact Option.some.inj h
      | obj a => simp only [zodParseEval] at h; simp only [zodParse]; exact Option.some.inj h
      | arr xs =>
        simp only [zodParseEval] at h
        cases he : zodParseElemsEval fuel e xs 0 with
        | none => rw [he] at h; exact Option.noConfusion h
        | some iv =>
          rw [he] at h
          simp only at h
          have hs := zodParseElemsEval_sound fuel e xs 0 iv he
          simp only [zodParse, hs]
          exact Option.some.inj h
    | object shape =>
      cases v with
      | str a => simp only [zodParseEval] at h; simp only [zodParse]; exact Option.some.inj h
      | num a => simp only [zodParseEval] at h; simp only [zodParse]; exact Option.some.inj h
      | bool a => simp only [zodParseEval] at h; simp only [zodParse]; exact Option.some.inj h
      | null => simp only [zodParseEval] at h; simp only [zodParse]; exact Option.some.inj h
      | undef => simp only [zodParseEval] at h; simp only [zodParse]; exact Option.some.inj h
      | arr a => simp only [zodParseEval] at h; simp only [zodParse]; exact Option.some.inj h
      | obj fields =>
        simp only [zodParseEval] at h
        cases he : zodParseShapeEval fuel shape fields with
        | none => rw [he] at h; exact Option.noConfusion h
        | some io =>
          rw [he] at h
          simp only at h
          have hs := zodParseShapeEval_sound fuel shape fields io he
          simp only [zodParse, hs]
          exact Option.some.inj h
    | union os =>
      simp only [zodParseEval] at h
      cases he : zodParseUnionEval fuel os v with
      | none => rw [he] at h; exact Option.noConfusion h
      | some o =>
        rw [he] at h
        have hs := zodParseUnionEval_sound fuel os v o he
        cases o with
        | none =>
          simp only at h
          simp only [zodParse, hs]
          exact Option.some.inj h
        | some r2 =>
          simp only at h
          simp only [zodParse, hs]
          exact Option.some.inj h
    | intersection l r2 =>
      simp only [zodParseEval] at h
      cases hl : zodParseEval fuel l v with
      | none => rw [hl] at h; exact Option.noConfusion h
      | some pl =>
        cases hr : zodParseEval fuel r2 v with
        | none => rw [hl, hr] at h; exact Option.noConfusion h
        | some pr =>
          rw [hl, hr] at h
          simp only at h
          have hsl := zodParseEval_sound fuel l v pl hl
          have hsr := zodParseEval_sound fuel r2 v pr hr
          simp only [zodParse, hsl, hsr]
          exact Option.some.inj h
    | record kSch vSch =>
      cases v with
      | str a => simp only [zodParseEval] at h; simp only [zodParse]; exact Option.some.inj h
      | num a => simp only [zodParseEval] at h; simp only [zodParse]; exact Option.some.inj h
      | bool a => simp only [zodParseEval] at h; simp only [zodParse]; exact Option.some.inj h
      | null => simp only [zodParseEval] at h; simp only [zodParse]; exact Option.some.inj h
      | undef => simp only [zodParseEval] at h; simp only [zodParse]; exact Option.some.inj h
      | arr a => simp only [zodParseEval] at h; simp only [zodParse]; exact Option.some.inj h
      | obj fields =>
        simp only [zodParseEval] at h
        cases he : zodParseRecordFieldsEval fuel kSch vSch fields with
        | none => rw [he] at h; exact Option.noConfusion h
        | some io =>
          rw [he] at h
          simp only at h
          have hs := zodParseRecordFieldsEval_sound fuel kSch vSch fields io he
          simp only [zodParse, hs]
          exact Option.some.inj h
    | tuple items rest =>
      cases v with
      | str a => simp only [zodParseEval] at h; simp only [zodParse]; exact Option.some.inj h
      | num a => simp only [zodParseEval] at h; simp only [zodParse]; exact Option.some.inj h
      | bool a => simp only [zodParseEval] at h; simp only [zodParse]; exact Option.some.inj h
      | null => simp only [zodParseEval] at h; simp only [zodParse]; exact Option.some.inj h
      | undef => simp only [zodParseEval] at h; simp only [zodParse]; exact Option.some.inj h
      | obj a => simp only [zodParseEval] at h; simp only [zodParse]; exact Option.some.inj h
      | arr xs =>
        simp only [zodParseEval] at h
        cases rest with
        | none =>
          by_cases hlen : xs.length < items.length
          · rw [if_pos hlen] at h
            simp only [zodParse]
            rw [if_pos hlen]
            exact Option.some.inj h
          · rw [if_neg hlen] at h
            try simp only at h
            by_cases hlen2 : items.length < xs.length
            · rw [if_pos hlen2] at h
              simp only [zodParse]
              rw [if_neg hlen, if_pos hlen2]
              exact Option.some.inj h
            · rw [if_neg hlen2] at h
              cases ht : zodParseTupleEval fuel items xs 0 with
              | none => rw [ht] at h; exact Option.noConfusion h
              | some iv =>
                rw [ht] at h
                try simp only at h
                have hs := zodParseTupleEval_sound fuel items xs 0 iv ht
                simp only [zodParse, hs]
                rw [if_neg hlen, if_neg hlen2]
                exact Option.some.inj h
        | some rr =>
          by_cases hlen : xs.length < items.length
          · rw [if_pos hlen] at h
            simp only [zodParse]
            rw [if_pos hlen]
            exact Option.some.inj h
          · rw [if_neg hlen] at h
            try simp only at h
            cases ht : zodParseTupleEval fuel items xs 0 with
            | none => rw [ht] at h; exact Option.noConfusion h
            | some iv1 =>
              rw [ht] at h
              cases hr : zodParseElemsEval fuel rr (xs.drop items.length) items.length with
              | none => rw [hr] at h; exact Option.noConfusion h
              | some iv2 =>
                rw [hr] at h
                try simp only at h
                have hs1 := zodParseTupleEval_sound fuel items xs 0 iv1 ht
                have hs2 := zodParseElemsEval_sound fuel rr (xs.drop items.length)
                  items.length iv2 hr
                simp only [zodParse, hs1, hs2]
                rw [if_neg hlen]
                exact Option.some.inj h
  termination_by fuel

/-- Soundness of the `zodParseElems` mirror. -/
theorem zodParseElemsEval_sound (fuel : Nat) (e : Zod) (xs : List JsValue)
    (idx : Nat) (iv : List ZodIssue × List JsValue)
    (h : zodParseElemsEval fuel e xs idx = some iv) :
    zodParseElems e xs idx = iv := by
  match fuel with
  | 0 => simp [zodParseElemsEval] at h
  | fuel + 1 =>
    cases xs with
    | nil =>
      simp only [zodParseElemsEval] at h
      simp only [zodParseElems]
      exact Option.some.inj h
    | cons x rest =>
      simp only [zodParseElemsEval] at h
      cases hr : zodParseElemsEval fuel e rest (idx + 1) with
      | none => rw [hr] at h; exact Option.noConfusion h
      | some riv =>
        rw [hr] at h
        cases hp : zodParseEval fuel e x with
        | none => rw [hp] at h; exact Option.noConfusion h
        | some pr =>
          rw [hp] at h
          simp only at h
          have hsr := zodParseElemsEval_sound fuel e rest (idx + 1) riv hr
          have hsp := zodParseEval_sound fuel e x pr hp
          simp only [zodParseElems, hsr, hsp]
          exact Option.some.inj h
  termination_by fuel

/-- Soundness of the `zodParseShape` mirror. -/
theorem zodParseShapeEval_sound (fuel : Nat) (shape : List (String × Zod))
    (fields : List (String × JsValue)) (io : List ZodIssue × List (String × JsValue))
    (h : zodParseShapeEval fuel shape fields = some io) :
    zodParseShape shape fields = io := by
  match fuel with
  | 0 => simp [zodParseShapeEval] at h
  | fuel + 1 =>
    cases shape with
    | nil =>
      simp only [zodParseShapeEval] at h
      simp only [zodParseShape]
      exact Option.some.inj h
    | cons kv rest =>
      obtain ⟨key, sch⟩ := kv
      simp only [zodParseShapeEval] at h
      cases hr : zodParseShapeEval fuel rest fields with
      | none => rw [hr] at h; exact Option.noConfusion h
      | some rio =>
        rw [hr] at h
        cases hp : zodParseEval fuel sch (match lookupJs fields key with
            | some v => v
            | none => .undef) with
        | none => rw [hp] at h; exact Option.noConfusion h
        | some pr =>
          rw [hp] at h
          simp only at h
          have hsr := zodParseShapeEval_sound fuel rest fields rio hr
          have hsp := zodParseEval_sound fuel sch (match lookupJs fields key with
            | some v => v
            | none => .undef) pr hp
          simp only [zodParseShape, hsr, hsp]
          exact Option.some.inj h
  termination_by fuel

/-- Soundness of the `zodParseUnion` mirror. -/
theorem zodParseUnionEval_sound (fuel : Nat) (os : List Zod) (v : JsValue)
    (o : Option JsValue) (h : zodParseUnionEval fuel os v = some o) :
    zodParseUnion os v = o := by
  match fuel with
  | 0 => simp [zodParseUnionEval] at h
  | fuel + 1 =>
    cases os with
    | nil =>
      simp only [zodParseUnionEval] at h
      simp only [zodParseUnion]
      exact Option.some.inj h
    | cons hd rest =>
      simp only [zodParseUnionEval] at h
      cases hp : zodParseEval fuel hd v with
      | none => rw [hp] at h; exact Option.noConfusion h
      | some pr =>
        rw [hp] at h
        have hsp := zodParseEval_sound fuel hd v pr hp
        cases pr with
        | ok r2 =>
          simp only at h
          simp only [zodParseUnion, hsp]
          exact Option.some.inj h
        | error is2 =>
          simp only at h
          have hsr := zodParseUnionEval_sound fuel rest v o h
          simp only [zodParseUnion, hsp]
          exact hsr
  termination_by fuel

/-- Soundness of the `zodParseTuple` mirror. -/
theorem zodParseTupleEval_sound (fuel : Nat) (items : List Zod) (xs : List JsValue)
    (idx : Nat) (iv : List ZodIssue × List JsValue)
    (h : zodParseTupleEval fuel items xs idx = some iv) :
    zodParseTuple items xs idx = iv := by
  match fuel with
  | 0 => simp [zodParseTupleEval] at h
  | fuel + 1 =>
    cases items with
    | nil =>
      simp only [zodParseTupleEval] at h
      simp only [zodParseTuple]
      exact Option.some.inj h
    | cons i irest =>
      cases xs with
      | nil =>
        simp only [zodParseTupleEval] at h
        simp only [zodParseTuple]
        exact Option.some.inj h
      | cons x xrest =>
        simp only [zodParseTupleEval] at h
        cases hr : zodParseTupleEval fuel irest xrest (idx + 1) with
        | none => rw [hr] at h; exact Option.noConfusion h
        | some riv =>
          rw [hr] at h
          cases hp : zodParseEval fuel i x with
          | none => rw [hp] at h; exact Option.noConfusion h
          | some pr =>
            rw [hp] at h
            simp only at h
            have hsr := zodParseTupleEval_sound fuel irest xrest (idx + 1) riv hr
            have hsp := zodParseEval_sound fuel i x pr hp
            simp only [zodParseTuple, hsr, hsp]
            exact Option.some.inj h
  termination_by fuel

/-- Soundness of the `zodParseRecordFields` mirror. -/
theorem zodParseRecordFieldsEval_sound (fuel : Nat) (kSch vSch : Zod)
    (fields : List (String × JsValue)) (io : List ZodIssue × List (String × JsValue))
    (h : zodParseRecordFieldsEval fuel kSch vSch fields = some io) :
    zodParseRecordFields kSch vSch fields = io := by
  match fuel with
  | 0 => simp [zodParseRecordFieldsEval] at h
  | fuel + 1 =>
    cases fields with
    | nil =>
      simp only [zodParseRecordFieldsEval] at h
      simp only [zodParseRecordFields]
      exact Option.some.inj h
    | cons kv rest =>
      obtain ⟨key, val⟩ := kv
      simp only [zodParseRecordFieldsEval] at h
      cases hr : zodParseRecordFieldsEval fuel kSch vSch rest with
      | none => rw [hr] at h; exact Option.noConfusion h
      | some rio =>
        rw [hr] at h
        cases hk : zodParseEval fuel kSch (.str key) with
        | none => rw [hk] at h; exact Option.noConfusion h
        | some kr =>
          rw [hk] at h
          cases hv : zodParseEval fuel vSch val with
          | none => rw [hv] at h; exact Option.noConfusion h
          | some vr =>
            rw [hv] at h
            simp only at h
            have hsr := zodParseRecordFieldsEval_sound fuel kSch vSch rest rio hr
            have hsk := zodParseEval_sound fuel kSch (.str key) kr hk
            have hsv := zodParseEval_sound fuel vSch val vr hv
            simp only [zodParseRecordFields, hsr, hsk, hsv]
            exact Option.some.inj h
  termination_by fuel
end

/-- The two validation modes (`ValidationMode` in types.ts). -/
inductive ValidationMode where
  | strict
  | loose
  deriving DecidableEq

/-- The result record of `validateData`.  The TypeScript declares
`data: Record<string, unknown>`, but on the loose-mode failure path the
code returns the failed parse's absent `result.data`, i.e. `undefined`;
`data` is therefore modelled as `Option JsValue` with `none` for
`undefined`. -/
structure ValidationResult where
  success : Bool
  data : Option JsValue
  errors : List String

/-- Get default value from a Zod schema (`getDefaultValue`,
validator.ts): a `ZodDefault`'s stored value (the code evaluates function
defaults to their value), unwrapping `optional` and `nullable`;
otherwise no default (`undefined`, modelled `none`). -/
def getDefaultValue : Zod → Option JsValue
  | .withDefault v _ => some v
  | .optional inner => getDefaultValue inner
  | .nullable inner => getDefaultValue inner
  | _ => none

/-- The loop of `applyDefaults` (validator.ts): for each field of an
object schema's shape whose key is absent from the data, insert the
field's default value when it has one. -/
def fillDefaults (result : List (String × JsValue)) :
    List (String × Zod) → List (String × JsValue)
  | [] => result
  | (key, fieldSchema) :: rest =>
    if keyIn key result then fillDefaults result rest
    else
      match getDefaultValue fieldSchema with
      | some dv => fillDefaults (result ++ [(key, dv)]) rest
      | none => fillDefaults result rest

/-- Apply default values to data based on schema (`applyDefaults`,
validator.ts).  Only a schema that is itself a `ZodObject` (not a
wrapped one) triggers the shallow top-level fill. -/
def applyDefaults (data : List (String × JsValue)) (schema : Zod) :
    List (String × JsValue) :=
  match schema with
  | .object shape => fillDefaults data shape
  | _ => data

/-- Format one zod issue the way `validateData` does:
`error.path.join(".") + ": " + error.message`. -/
def formatIssue (i : ZodIssue) : String :=
  String.intercalate "." i.path ++ ": " ++ i.message

/-- Validate data against a schema with different modes (`validateData`,
validator.ts).  A shallow copy of the data is taken; in loose mode
top-level defaults are filled first.  The copy is then parsed with
`schema.safeParse`.  On failure, the issues are formatted into `errors`;
strict mode returns `success=false` with the processed (unparsed) data,
while loose mode logs the errors as warnings and falls through to the
common return, whose `data` is the failed parse's `result.data` —
`undefined`.  On success the common return carries the parse output.
(The surrounding `try`/`catch` is not modelled: no branch of the
embedded `zodParse` throws.) -/
def validateData (data : List (String × JsValue)) (schema : Zod)
    (mode : ValidationMode) : ValidationResult :=
  let processedData := if mode = .loose then applyDefaults data schema else data
  match zodParse schema (.obj processedData) with
  | .ok parsed => { success := true, data := some parsed, errors := [] }
  | .error issues =>
    let errors := issues.map formatIssue
    if mode = .strict then
      { success := false, data := some (.obj processedData), errors := errors }
    else
      { success := true, data := none, errors := errors }

/-- Validate element data against an element type schema
(`validateElementData`, validator.ts): delegates to `validateData`. -/
def validateElementData (data : List (String × JsValue)) (elementTypeSchema : Zod)
    (mode : ValidationMode) : ValidationResult :=
  validateData data elementTypeSchema mode

/-- Validate link data against a link type schema (`validateLinkData`,
validator.ts): delegates to `validateData`. -/
def validateLinkData (data : List (String × JsValue)) (linkTypeSchema : Zod)
    (mode : ValidationMode) : ValidationResult :=
  validateData data linkTypeSchema mode

/-- Kernel evaluation, transferred by soundness: parsing `{title: 123}`
against the one-required-string-field object schema fails with a single
issue on `title`. -/
theorem zodParse_title123 :
    zodParse (.object [("title", .string)]) (.obj [("title", .num 123)]) =
      .error [⟨["title"], "Expected string, received number"⟩] :=
  zodParseEval_sound 20 _ _ _ rfl

/-- Kernel evaluation: parsing `{title: 7}` against the `task` schema
fails on `title` (the defaulted `completed` raises nothing). -/
theorem zodParse_task_title7 :
    zodParse (.object [("title", .string),
        ("completed", .withDefault (.bool false) .boolean)])
      (.obj [("title", .num 7)]) =
      .error [⟨["title"], "Expected string, received number"⟩] :=
  zodParseEval_sound 20 _ _ _ rfl

/-- Kernel evaluation: `{a: 1, b: 2}` parses against the
two-optional-number schema unchanged. -/
theorem zodParse_ab12 :
    zodParse (.object [("a", .optional .number), ("b", .optional .number)])
      (.obj [("a", .num 1), ("b", .num 2)]) =
      .ok (.obj [("a", .num 1), ("b", .num 2)]) :=
  zodParseEval_sound 20 _ _ _ rfl

/-- Kernel evaluation: `{a: 3}` parses against the two-optional-number
schema unchanged (the absent `b` is optional). -/
theorem zodParse_a3 :
    zodParse (.object [("a", .optional .number), ("b", .optional .number)])
      (.obj [("a", .num 3)]) = .ok (.obj [("a", .num 3)]) :=
  zodParseEval_sound 20 _ _ _ rfl

/-- Kernel evaluation: `{a: 3, b: 2}` parses against the
two-optional-number schema unchanged. -/
theorem zodParse_a3b2 :
    zodParse (.object [("a", .optional .number), ("b", .optional .number)])
      (.obj [("a", .num 3), ("b", .num 2)]) =
      .ok (.obj [("a", .num 3), ("b", .num 2)]) :=
  zodParseEval_sound 20 _ _ _ rfl

/-- Kernel evaluation: the empty object parses against the empty object
schema. -/
theorem zodParse_emptyObj :
    zodParse (.object []) (.obj []) = .ok (.obj []) :=
  zodParseEval_sound 20 _ _ _ rfl

/-- Unfolding of `validateData` in strict mode: no defaults pass runs,
and a failing parse reports failure with the unparsed data. -/
theorem validateData_strict_eq (data : List (String × JsValue)) (schema : Zod) :
    validateData data schema .strict =
      match zodParse schema (.obj data) with
      | .ok parsed => { success := true, data := some parsed, errors := [] }
      | .error issues =>
          { success := false, data := some (.obj data),
            errors := issues.map formatIssue } := rfl

/-- Unfolding of `validateData` in loose mode: defaults are applied
first, and a failing parse still reports success — with `undefined`
data. -/
theorem validateData_loose_eq (data : List (String × JsValue)) (schema : Zod) :
    validateData data schema .loose =
      match zodParse schema (.obj (applyDefaults data schema)) with
      | .ok parsed => { success := true, data := some parsed, errors := [] }
      | .error issues =>
          { success := true, data := none,
            errors := issues.map formatIssue } := rfl

/-- Loose validation of `{title: 123}` against `{title: string}`:
defaults change nothing, the parse fails, and the loose fall-through
returns success with `undefined` data and the formatted error. -/
theorem validateData_title123_loose :
    validateData [("title", .num 123)] (.object [("title", .string)]) .loose =
      { success := true, data := none,
        errors := ["title: Expected string, received number"] } := by
  have ha : applyDefaults [("title", .num 123)] (.object [("title", .string)]) =
      [("title", .num 123)] := by
    simp [applyDefaults, fillDefaults, keyIn]
  rw [validateData_loose_eq, ha, zodParse_title123]
  rfl

/-- Strict validation of `{title: 7}` against the `task` schema fails. -/
theorem validateData_task_title7_strict :
    (validateData [("title", .num 7)]
      (.object [("title", .string),
        ("completed", .withDefault (.bool false) .boolean)]) .strict).success
      = false := by
  rw [validateData_strict_eq, zodParse_task_title7]

/-- Loose validation of `{a: 1, b: 2}` against the two-optional-number
schema succeeds with the data unchanged. -/
theorem validateData_ab12_loose :
    validateData [("a", .num 1), ("b", .num 2)]
      (.object [("a", .optional .number), ("b", .optional .number)]) .loose =
      { success := true, data := some (.obj [("a", .num 1), ("b", .num 2)]),
        errors := [] } := by
  have ha : applyDefaults [("a", .num 1), ("b", .num 2)]
      (.object [("a", .optional .number), ("b", .optional .number)]) =
      [("a", .num 1), ("b", .num 2)] := by
    simp [applyDefaults, fillDefaults, keyIn]
  rw [validateData_loose_eq, ha, zodParse_ab12]

/-- Strict validation of `{a: 3}` against the two-optional-number schema
succeeds with the data unchanged. -/
theorem validateData_a3_strict :
    validateData [("a", .num 3)]
      (.object [("a", .optional .number), ("b", .optional .number)]) .strict =
      { success := true, data := some (.obj [("a", .num 3)]), errors := [] } := by
  rw [validateData_strict_eq, zodParse_a3]

/-- Strict validation of `{a: 3, b: 2}` against the two-optional-number
schema succeeds with the data unchanged. -/
theorem validateData_a3b2_strict :
    validateData [("a", .num 3), ("b", .num 2)]
      (.object [("a", .optional .number), ("b", .optional .number)]) .strict =
      { success := true, data := some (.obj [("a", .num 3), ("b", .num 2)]),
        errors := [] } := by
  rw [validateData_strict_eq, zodParse_a3b2]

/-- Strict validation of the empty object against the empty object
schema succeeds. -/
theorem validateData_empty_strict :
    validateData [] (.object []) .strict =
      { success := true, data := some (.obj []), errors := [] } := by
  rw [validateData_strict_eq, zodParse_emptyObj]

/-- Loose validation of the empty object against the empty object schema
succeeds. -/
theorem validateData_empty_loose :
    validateData [] (.object []) .loose =
      { success := true, data := some (.obj []), errors := [] } := by
  have ha : applyDefaults [] (.object []) = ([] : List (String × JsValue)) := by
    simp [applyDefaults, fillDefaults]
  rw [validateData_loose_eq, ha, zodParse_emptyObj]

/-- A row of the `element` table (timestamps omitted — no claim touches
them). -/
structure StoredElement where
  id : String
  typeId : String
  data : JsValue

/-- A row of the `link` table. -/
structure StoredLink where
  id : String
  fromId : String
  toId : String
  linkTypeId : String
  data : JsValue

/-- A row of the `element_type` table. -/
structure StoredElementType where
  id : String
  schema : Descriptor
  parentTypes : List String := []

/-- A row of the `link_type` table. -/
structure StoredLinkType where
  id : String
  fromType : String
  toType : String
  schema : Descriptor
  parentTypes : List String := []

/-- The backing store's state: the four tables (schema.ts), plus the
counter behind fresh id generation (modelling `crypto.randomUUID`, of
which the code only uses freshness). -/
structure DB where
  elements : List StoredElement
  links : List StoredLink
  elementTypes : List StoredElementType
  linkTypes : List StoredLinkType
  nextId : Nat := 0

/-- Fresh id generation (`crypto.randomUUID()` in the source): a new id
from the state counter. -/
def freshId (db : DB) : String :=
  "id-" ++ toString db.nextId

/-- The entries a JavaScript object spread sees in a value: an object's
own fields; an array's or string's indexed entries; nothing for
primitives, `null` and `undefined`.  Models the
`result.data as Record<string, unknown>` casts at the store layer
feeding `validateData`'s `{...data}`. -/
def jsEntries : JsValue → List (String × JsValue)
  | .obj fields => fields
  | .arr elems => elems.enum.map (fun iv => (toString iv.1, iv.2))
  | .str s => s.toList.enum.map (fun ic => (toString ic.1, .str (String.singleton ic.2)))
  | _ => []

/-- The message of the `Element type '...' not found` error. -/
def typeNotFoundMsg (typeId : String) : String :=
  "Element type " ++ q typeId ++ " not found"

/-- The message of the `Validation failed: ...` error. -/
def validationFailedMsg (errors : List String) : String :=
  "Validation failed: " ++ String.intercalate ", " errors

/-- Create a new element (`createElement`, element.ts): look up the
element type (throw if absent — no write), deserialize its stored
descriptor, strict-validate the payload (throw if invalid — no write),
then insert a fresh-id row carrying the validated data and return it. -/
def createElement (db : DB) (typeId : String) (data : List (String × JsValue)) :
    Except String StoredElement × DB :=
  match db.elementTypes.find? (fun t => t.id == typeId) with
  | none => (.error (typeNotFoundMsg typeId), db)
  | some typeDef =>
    let schema := deserializeZodSchema typeDef.schema
    let validation := validateElementData data schema .strict
    if !validation.success then
      (.error (validationFailedMsg validation.errors), db)
    else
      let newElement : StoredElement :=
        { id := freshId db, typeId := typeId, data := validation.data.getD .undef }
      (.ok newElement,
        { db with elements := db.elements ++ [newElement], nextId := db.nextId + 1 })

/-- Get element by ID (`getElement`, element.ts): read the row (`none`
if absent); if its element type resolves, loose-validate the stored data
and substitute the validation's data; if the type does not resolve, the
row is returned exactly as stored — no validation, no defaults, no
error. -/
def getElement (db : DB) (id : String) : Option StoredElement :=
  match db.elements.find? (fun e => e.id == id) with
  | none => none
  | some result =>
    match db.elementTypes.find? (fun t => t.id == result.typeId) with
    | none => some result
    | some typeDef =>
      let schema := deserializeZodSchema typeDef.schema
      let validation := validateElementData (jsEntries result.data) schema .loose
      some { result with data := validation.data.getD .undef }

/-- The JavaScript object spread `{...base, ...extra}`: the base entries
in order with extra's values overriding shared keys, then extra's new
keys in their order. -/
def jsSpread (base extra : List (String × JsValue)) : List (String × JsValue) :=
  (base.map (fun kv =>
    match lookupJs extra kv.1 with
    | some v => (kv.1, v)
    | none => kv))
  ++ extra.filter (fun kv => !keyIn kv.1 base)

/-- Update element (`updateElement`, element.ts): fetch the existing
record via `getElement` (so the base is the loose-validated data), look
up its type, shallow-merge the partial payload over the existing data
with object spread, strict-validate the merged result (throw if invalid
— no write), then persist the validated data on the row. -/
def updateElement (db : DB) (id : String) (data : List (String × JsValue)) :
    Except String StoredElement × DB :=
  match getElement db id with
  | none => (.error ("Element " ++ q id ++ " not found"), db)
  | some existing =>
    match db.elementTypes.find? (fun t => t.id == existing.typeId) with
    | none => (.error (typeNotFoundMsg existing.typeId), db)
    | some typeDef =>
      let mergedData := jsSpread (jsEntries existing.data) data
      let schema := deserializeZodSchema typeDef.schema
      let validation := validateElementData mergedData schema .strict
      if !validation.success then
        (.error (validationFailedMsg validation.errors), db)
      else
        let newData := validation.data.getD .undef
        let updated : StoredElement :=
          { id := existing.id, typeId := existing.typeId, data := newData }
        (.ok updated,
          { db with elements := db.elements.map (fun e =>
              if e.id == id then { e with data := newData } else e) })

/-- Delete element (`deleteElement`, element.ts): a single
`db.delete(element).where(eq(element.id, id))` — only the element row is
removed.  The backing schema (schema.ts) declares no foreign keys and no
cascade on the `link` table, so links referencing the element are left
in place. -/
def deleteElement (db : DB) (id : String) : DB :=
  { db with elements := db.elements.filter (fun e => !(e.id == id)) }

/-- Create a new link (`createLink`, link.ts): verify both endpoint
elements exist (throw naming the missing side), resolve the link type
(throw if absent), strict-validate the payload (`params.data || {}`),
then insert a fresh-id row. -/
def createLink (db : DB) (fromId toId linkTypeId : String)
    (dataParam : Option (List (String × JsValue))) :
    Except String StoredLink × DB :=
  match db.elements.find? (fun e => e.id == fromId) with
  | none => (.error ("Source element " ++ q fromId ++ " not found"), db)
  | some _ =>
    match db.elements.find? (fun e => e.id == toId) with
    | none => (.error ("Target element " ++ q toId ++ " not found"), db)
    | some _ =>
      match db.linkTypes.find? (fun t => t.id == linkTypeId) with
      | none => (.error ("Link type " ++ q linkTypeId ++ " not found"), db)
      | some typeDef =>
        let data := dataParam.getD []
        let schema := deserializeZodSchema typeDef.schema
        let validation := validateLinkData data schema .strict
        if !validation.success then
          (.error (validationFailedMsg validation.errors), db)
        else
          let newLink : StoredLink :=
            { id := freshId db, fromId := fromId, toId := toId,
              linkTypeId := linkTypeId, data := validation.data.getD .undef }
          (.ok newLink,
            { db with links := db.links ++ [newLink], nextId := db.nextId + 1 })

/-- Get link by ID (`getLink`, link.ts): read the row; when its link
type resolves, loose-validate the stored data; otherwise return the row
as stored. -/
def getLink (db : DB) (id : String) : Option StoredLink :=
  match db.links.find? (fun l => l.id == id) with
  | none => none
  | some result =>
    match db.linkTypes.find? (fun t => t.id == result.linkTypeId) with
    | none => some result
    | some typeDef =>
      let schema := deserializeZodSchema typeDef.schema
      let validation := validateLinkData (jsEntries result.data) schema .loose
      some { result with data := validation.data.getD .undef }

/-- Update link (`updateLink`, link.ts): fetch the existing link via
`getLink`, look up its link type, strict-validate the provided payload
by itself — the existing data is not merged in — and persist the
validated payload as the link's new data. -/
def updateLink (db : DB) (id : String) (data : List (String × JsValue)) :
    Except String StoredLink × DB :=
  match getLink db id with
  | none => (.error ("Link " ++ q id ++ " not found"), db)
  | some existing =>
    match db.linkTypes.find? (fun t => t.id == existing.linkTypeId) with
    | none => (.error ("Link type " ++ q existing.linkTypeId ++ " not found"), db)
    | some typeDef =>
      let schema := deserializeZodSchema typeDef.schema
      let validation := validateLinkData data schema .strict
      if !validation.success then
        (.error (validationFailedMsg validation.errors), db)
      else
        let newData := validation.data.getD .undef
        let updated : StoredLink :=
          { id := existing.id, fromId := existing.fromId, toId := existing.toId,
            linkTypeId := existing.linkTypeId, data := newData }
        (.ok updated,
          { db with links := db.links.map (fun l =>
              if l.id == id then { l with data := newData } else l) })

/-- Delete link (`deleteLink`, link.ts). -/
def deleteLink (db : DB) (id : String) : DB :=
  { db with links := db.links.filter (fun l => !(l.id == id)) }

/-- The per-result loose-validation loop shared by `findLinksFrom` and
`findLinksTo` (link.ts): when a result's link type resolves, substitute
the loose validation's data. -/
def looseValidateLink (db : DB) (result : StoredLink) : StoredLink :=
  match db.linkTypes.find? (fun t => t.id == result.linkTypeId) with
  | none => result
  | some typeDef =>
    let schema := deserializeZodSchema typeDef.schema
    let validation := validateLinkData (jsEntries result.data) schema .loose
    { result with data := validation.data.getD .undef }

/-- Find links from an element (`findLinksFrom`, link.ts): filter the
link table on `fromId` (and on `linkTypeId` when one is passed), then
loose-validate each result. -/
def findLinksFrom (db : DB) (elementId : String) (linkTypeId : Option String) :
    List StoredLink :=
  let results := db.links.filter (fun l =>
    l.fromId == elementId &&
      match linkTypeId with
      | some lt => l.linkTypeId == lt
      | none => true)
  results.map (looseValidateLink db)

/-- Find links to an element (`findLinksTo`, link.ts): the mirror of
`findLinksFrom` on `toId`. -/
def findLinksTo (db : DB) (elementId : String) (linkTypeId : Option String) :
    List StoredLink :=
  let results := db.links.filter (fun l =>
    l.toId == elementId &&
      match linkTypeId with
      | some lt => l.linkTypeId == lt
      | none => true)
  results.map (looseValidateLink db)

/-- Get all links touching an element (`getAllLinks`,
query-helpers.ts): the outgoing links followed by the incoming ones. -/
def getAllLinks (db : DB) (elementId : String) (linkTypeId : Option String) :
    List StoredLink :=
  findLinksFrom db elementId linkTypeId ++ findLinksTo db elementId linkTypeId

/-- The `direction` label of a connected element: `toDir` renders the
source's string `"to"`, `fromDir` its `"from"`. -/
inductive Direction where
  | fromDir
  | toDir
  deriving DecidableEq

/-- One result of `getConnectedElements`. -/
structure ConnectedEntry where
  element : StoredElement
  link : StoredLink
  direction : Direction

/-- Get directly connected elements (`getConnectedElements`,
query-helpers.ts): for every link touching the element, resolve the
other endpoint via `getElement`, labelling the direction `"to"` when the
queried element is the link's source and `"from"` when it is the
target; links whose other endpoint does not resolve are dropped. -/
def getConnectedElements (db : DB) (elementId : String)
    (linkTypeId : Option String) : List ConnectedEntry :=
  (getAllLinks db elementId linkTypeId).filterMap (fun link =>
    let connectedElementId := if link.fromId == elementId then link.toId else link.fromId
    let direction : Direction := if link.fromId == elementId then .toDir else .fromDir
    match getElement db connectedElementId with
    | some element => some ⟨element, link, direction⟩
    | none => none)

/-- The ids of the element rows in the store. -/
def elementIds (db : DB) : List String :=
  db.elements.map (fun e => e.id)

/-- The count of store element ids not yet visited, the primary
component of the traversal's termination measure. -/
def unvisitedCount (db : DB) (visited : List String) : Nat :=
  (elementIds db).countP (fun i => !visited.contains i)

/-- A successful `getElement` lookup means the id is an element row's
id. -/
theorem getElement_mem_elementIds {db : DB} {i : String} {el : StoredElement}
    (h : getElement db i = some el) : i ∈ elementIds db := by
  unfold getElement at h
  cases hf : db.elements.find? (fun e => e.id == i) with
  | none => rw [hf] at h; exact absurd h (by simp)
  | some r =>
    have hmem := List.mem_of_find?_eq_some hf
    have hp := List.find?_some hf
    have : r.id = i := by simpa using hp
    exact this ▸ List.mem_map_of_mem (fun e => e.id) hmem

/-- A successful `getElement` lookup returns an element carrying the
looked-up id. -/
theorem getElement_id {db : DB} {i : String} {el : StoredElement}
    (h : getElement db i = some el) : el.id = i := by
  unfold getElement at h
  split at h
  · simp at h
  · rename_i r hf
    have hp : r.id = i := by simpa using List.find?_some hf
    split at h
    · cases h
      exact hp
    · simp only [Option.some.injEq] at h
      rw [← h]
      exact hp

/-- Growing the visited list cannot increase the unvisited count. -/
theorem unvisitedCount_cons_le (db : DB) (visited : List String) (i : String) :
    unvisitedCount db (i :: visited) ≤ unvisitedCount db visited := by
  unfold unvisitedCount
  refine List.countP_mono_left (fun a _ h => ?_)
  simp only [List.contains_cons, Bool.not_eq_eq_eq_not, Bool.not_true, Bool.or_eq_false_iff] at h ⊢
  simp_all

/-- Counting with the stronger not-visited predicate after adding a
member id that was unvisited strictly drops the count. -/
theorem countP_not_contains_cons_lt (l visited : List String) (i : String)
    (hmem : i ∈ l) (hnew : visited.contains i = false) :
    l.countP (fun x => !(i :: visited).contains x) <
      l.countP (fun x => !visited.contains x) := by
  have hmono : ∀ x, (!(i :: visited).contains x) = true →
      (!visited.contains x) = true := by
    intro x hx
    cases hcv : visited.contains x with
    | false => simp [hcv]
    | true =>
      exfalso
      have hc : (i :: visited).contains x = true := by
        simp only [List.contains_cons, hcv, Bool.or_true]
      rw [hc] at hx
      simp at hx
  induction l with
  | nil => exact absurd hmem (by simp)
  | cons hd tl ih =>
    simp only [List.countP_cons]
    rcases List.mem_cons.mp hmem with heq | htl
    · have h1 : (!(i :: visited).contains hd) = false := by
        simp [List.contains_cons, ← heq]
      have h2 : (!visited.contains hd) = true := by
        rw [← heq, hnew]
        simp
      have e1 : (if (!(i :: visited).contains hd) = true then 1 else 0) = 0 := by
        rw [h1]
        simp
      have e2 : (if (!visited.contains hd) = true then 1 else 0) = 1 := by
        rw [h2]
        simp
      rw [e1, e2]
      have hle := List.countP_mono_left (l := tl) (fun x _ hx => hmono x hx)
      omega
    · have hif : (if (!(i :: visited).contains hd) = true then 1 else 0) ≤
          (if (!visited.contains hd) = true then 1 else 0) := by
        by_cases hc : (!(i :: visited).contains hd) = true
        · rw [if_pos hc, if_pos (hmono hd hc)]
        · rw [if_neg hc]
          exact Nat.zero_le _
      have hlt := ih htl
      omega

/-- Visiting an element id that was unvisited strictly decreases the
unvisited count. -/
theorem unvisitedCount_cons_lt (db : DB) (visited : List String) (i : String)
    (hmem : i ∈ elementIds db) (hnew : visited.contains i = false) :
    unvisitedCount db (i :: visited) < unvisitedCount db visited :=
  countP_not_contains_cons_lt (elementIds db) visited i hmem hnew


/-- Two filters of one list together have at most twice its length. -/
theorem two_filters_le (p r : α → Bool) (l : List α) :
    (l.filter p).length + (l.filter r).length ≤ 2 * l.length := by
  have h1 := List.length_filter_le p l
  have h2 := List.length_filter_le r l
  omega

/-- The number of connected entries is at most twice the number of link
rows (every entry stems from one link row, read from each side at most
once). -/
theorem getConnectedElements_length_le (db : DB) (elementId : String)
    (linkTypeId : Option String) :
    (getConnectedElements db elementId linkTypeId).length ≤ 2 * db.links.length := by
  unfold getConnectedElements getAllLinks findLinksFrom findLinksTo
  refine le_trans (List.length_filterMap_le _ _) ?_
  simp only [List.length_append, List.length_map]
  exact two_filters_le _ _ _

/-- One pending item of the traversal's breadth-first queue. -/
structure QueueItem where
  elementId : String
  depth : Nat
  path : List String

/-- One emitted entry of `traverse`'s result. -/
structure TraverseEntry where
  element : StoredElement
  depth : Nat
  path : List String

/-- The enqueue step of `traverse` (query-helpers.ts): when the dequeued
item's depth is below `maxDepth`, its connected elements not yet in the
visited set, one hop deeper and with the path extended; otherwise
nothing. -/
def traverseExpand (db : DB) (linkTypeId : Option String) (maxDepth : Nat)
    (item : QueueItem) (visited' : List String) : List QueueItem :=
  if item.depth < maxDepth then
    (getConnectedElements db item.elementId linkTypeId).filterMap (fun c =>
      if visited'.contains c.element.id then none
      else some ⟨c.element.id, item.depth + 1, item.path ++ [c.element.id]⟩)
  else []

/-- The enqueue step enqueues at most twice the number of link rows. -/
theorem traverseExpand_length_le (db : DB) (linkTypeId : Option String)
    (maxDepth : Nat) (item : QueueItem) (visited' : List String) :
    (traverseExpand db linkTypeId maxDepth item visited').length ≤
      2 * db.links.length := by
  unfold traverseExpand
  split
  · exact le_trans (List.length_filterMap_le _ _)
      (getConnectedElements_length_le db item.elementId linkTypeId)
  · simp

/-- The `while (queue.length > 0)` loop of `traverse`
(query-helpers.ts): dequeue the head; skip it when already visited or
deeper than `maxDepth`; otherwise mark it visited, resolve it via
`getElement` (an unresolvable id stays marked but emits nothing), emit
the element with the item's depth and path, and enqueue the expansion
step's items.  Termination holds on every finite store, cyclic links
included: each iteration either shrinks the queue or visits a store
element id for the first time. -/
def traverseLoop (db : DB) (linkTypeId : Option String) (maxDepth : Nat) :
    List QueueItem → List String → List TraverseEntry
  | [], _ => []
  | item :: rest, visited =>
    if hskip : (visited.contains item.elementId || maxDepth < item.depth) = true then
      traverseLoop db linkTypeId maxDepth rest visited
    else
      match hG : getElement db item.elementId with
      | none => traverseLoop db linkTypeId maxDepth rest (item.elementId :: visited)
      | some el =>
        ⟨el, item.depth, item.path⟩ ::
          traverseLoop db linkTypeId maxDepth
            (rest ++ traverseExpand db linkTypeId maxDepth item (item.elementId :: visited))
            (item.elementId :: visited)
  termination_by queue visited =>
    (2 * db.links.length + 2) * unvisitedCount db visited + queue.length
  decreasing_by
  · simp only [List.length_cons]
    omega
  · have hle := unvisitedCount_cons_le db visited item.elementId
    have hmul := Nat.mul_le_mul_left (2 * db.links.length + 2) hle
    simp only [List.length_cons]
    omega
  · have hnv : visited.contains item.elementId = false := by
      rcases Bool.eq_false_or_eq_true (visited.contains item.elementId) with h | h
      · exfalso
        apply hskip
        rw [h]
        exact Bool.true_or _
      · exact h
    have hmem := getElement_mem_elementIds hG
    have hlt := unvisitedCount_cons_lt db visited item.elementId hmem hnv
    have hstep := Nat.mul_le_mul_left (2 * db.links.length + 2) hlt
    rw [Nat.mul_succ] at hstep
    have hlen := traverseExpand_length_le db linkTypeId maxDepth item
      (item.elementId :: visited)
    simp only [List.length_cons, List.length_append]
    omega

/-- Simple graph traversal (`traverse`, query-helpers.ts): breadth-first
search from the start element, seeding the queue with the start id at
depth 0 and path `[startElementId]`.  The source's `maxDepth` defaults
to 3. -/
def traverse (db : DB) (startElementId : String) (linkTypeId : Option String)
    (maxDepth : Nat := 3) : List TraverseEntry :=
  traverseLoop db linkTypeId maxDepth [⟨startElementId, 0, [startElementId]⟩] []

/-- An example in-code schema carrying the three annotations and the
exotic `function` and `promise` variants (no `lazy`). -/
def zTask : Zod :=
  .object [("title", .string),
           ("completed", .withDefault (.bool false) .boolean),
           ("due", .optional (.nullable .date)),
           ("callback", .function),
           ("result", .promise .string)]

/-- C1 (amended): for every serializer-produced descriptor containing no
`lazy` node — annotations and the `function` and `promise` variants
included — serializing the deserialization yields the descriptor back:
`serializeZodSchema (deserializeZodSchema (serializeZodSchema s)) =
serializeZodSchema s`.  The `lazy` exclusion is forced: `lazy`
deserializes to the permissive `z.any()`, which re-serializes as
`any`. -/
theorem C1_serialize_deserialize_roundtrip (s : Zod)
    (h : (serializeZodSchema s).noLazy = true) :
    serializeZodSchema (deserializeZodSchema (serializeZodSchema s)) =
      serializeZodSchema s :=
  serialize_deserialize (serializeZodSchema s) h

/-- Witness for C1: the round trip holds at the concrete schema
`zTask`. -/
theorem C1_serialize_deserialize_roundtrip_witness :
    (serializeZodSchema zTask).noLazy = true ∧
    serializeZodSchema (deserializeZodSchema (serializeZodSchema zTask)) =
      serializeZodSchema zTask := by
  constructor
  · simp [zTask, serializeZodSchema, serializeShape, Descriptor.noLazy, DKind.noLazy,
      shapeNoLazy, Descriptor.setOptional, Descriptor.setNullable, Descriptor.setDefault]
  · exact C1_serialize_deserialize_roundtrip zTask (by
      simp [zTask, serializeZodSchema, serializeShape, Descriptor.noLazy, DKind.noLazy,
        shapeNoLazy, Descriptor.setOptional, Descriptor.setNullable, Descriptor.setDefault])

/-- Counterexample to C1 as stated: the descriptor `{type: "lazy"}`,
which `serializeZodSchema` produces for any `z.lazy(...)` schema, does
not survive the round trip — it comes back as `{type: "any"}`. -/
theorem C1_roundtrip_lazy_counterexample :
    serializeZodSchema (deserializeZodSchema (serializeZodSchema .lazy)) ≠
      serializeZodSchema .lazy := by
  simp [serializeZodSchema, deserializeZodSchema, deserializeBase]

/-- C3: deserialization builds the base validator from the descriptor's
`type` field alone (`deserializeBase` consumes only `d.kind`) and then
applies the annotations in the fixed order default, then nullable, then
optional: `deserializeZodSchema d` equals the base validator wrapped by
the three spec-side annotation combinators in that order. -/
theorem C3_deserialize_annotation_order (d : Descriptor) :
    deserializeZodSchema d =
      specApplyOptional d.optional (specApplyNullable d.nullable
        (specApplyDefault d.dflt (deserializeBase d.kind))) := by
  cases d with
  | mk k o n dv =>
    cases o <;> cases n <;> cases dv <;>
      simp [deserializeZodSchema, specApplyOptional, specApplyNullable,
        specApplyDefault, Descriptor.kind, Descriptor.optional,
        Descriptor.nullable, Descriptor.dflt]

/-- The stored `task` descriptor used by the C2 evidence: an object with
one required string field `title`. -/
def c2schema : Descriptor :=
  .mk (.object [("title", .mk .string false false none)]) false false none

/-- Evaluation of the C2 descriptor's deserialization. -/
theorem c2schema_deserialize :
    deserializeZodSchema c2schema = .object [("title", .string)] := by
  simp [c2schema, deserializeZodSchema, deserializeBase, deserializeShape]

/-- C2 (code-bug evidence): loose-mode validation of the object-shaped
value `{title: 123}` against the deserialized `{title: string}` schema
fails interpretation, and the function returns `success = true` with a
nonempty error list — but its `data` is `none` (the failed parse's
absent `result.data`, i.e. `undefined`), not the defaulted-but-unparsed
value `{title: 123}` that the claim (and the declared return type
`Record<string, unknown>`) promises. -/
theorem C2_loose_failure_returns_undefined :
    (validateData [("title", .num 123)] (deserializeZodSchema c2schema) .loose).success
      = true ∧
    (validateData [("title", .num 123)] (deserializeZodSchema c2schema) .loose).errors
      ≠ [] ∧
    (validateData [("title", .num 123)] (deserializeZodSchema c2schema) .loose).data
      = none ∧
    applyDefaults [("title", .num 123)] (deserializeZodSchema c2schema)
      = [("title", .num 123)] := by
  simp only [c2schema_deserialize]
  refine ⟨?_, ?_, ?_, ?_⟩
  · rw [validateData_title123_loose]
  · rw [validateData_title123_loose]; simp
  · rw [validateData_title123_loose]
  · simp [applyDefaults, fillDefaults, keyIn]

/-- C10: when the element row is found but its `typeId` resolves to no
stored element type, `getElement` returns the record exactly as
persisted: no loose validation runs, no defaults are filled, and no
error is raised. -/
theorem C10_getElement_missing_type_returns_raw (db : DB) (id : String)
    (el : StoredElement)
    (h1 : db.elements.find? (fun e => e.id == id) = some el)
    (h2 : db.elementTypes.find? (fun t => t.id == el.typeId) = none) :
    getElement db id = some el := by
  unfold getElement
  rw [h1]
  simp only
  rw [h2]

/-- A store holding one element whose type id resolves to nothing. -/
def c10db : DB :=
  { elements := [⟨"e1", "ghost", .obj [("x", .num 1)]⟩],
    links := [], elementTypes := [], linkTypes := [] }

/-- Witness for C10 at a concrete store. -/
theorem C10_getElement_missing_type_returns_raw_witness :
    getElement c10db "e1" = some ⟨"e1", "ghost", .obj [("x", .num 1)]⟩ :=
  C10_getElement_missing_type_returns_raw c10db "e1" _
    (by simp [c10db, List.find?]) (by simp [c10db, List.find?])

/-- The Bool condition of `isSchemaChangeSafe`'s loop as a
proposition. -/
theorem unsafeChange_iff (c : SchemaChange) :
    unsafeChange c = true ↔
      (c.type = .added ∨ c.type = .changed) ∧
        c.required = true ∧ c.hasDefault = false := by
  unfold unsafeChange
  cases hc : c.type <;> cases hr : c.required <;> cases hd : c.hasDefault <;>
    simp [hc, hr, hd]

/-- C4: `isSchemaChangeSafe` is safe whenever the record count is 0; for
a positive count it is unsafe exactly when some `added` or `changed`
entry is required without a default (so `removed` entries and
optional/defaulted entries never make it unsafe); and any reason it
reports is the source's message for such an offending entry, naming that
entry's field. -/
theorem C4_isSchemaChangeSafe_spec (changes : List SchemaChange) (n : Nat) :
    (n = 0 → isSchemaChangeSafe changes n = { safe := true }) ∧
    (0 < n →
      (((isSchemaChangeSafe changes n).safe = false) ↔
        ∃ c ∈ changes, (c.type = .added ∨ c.type = .changed) ∧
          c.required = true ∧ c.hasDefault = false)) ∧
    (∀ r, (isSchemaChangeSafe changes n).reason = some r →
      ∃ c ∈ changes, (c.type = .added ∨ c.type = .changed) ∧
        c.required = true ∧ c.hasDefault = false ∧ r = unsafeReason c n) := by
  refine ⟨?_, ?_, ?_⟩
  · intro h0
    subst h0
    simp [isSchemaChangeSafe]
  · intro hn
    unfold isSchemaChangeSafe
    rw [if_neg (by omega)]
    cases hf : changes.find? unsafeChange with
    | none =>
      simp only
      constructor
      · intro hfalse
        exact absurd hfalse (by simp)
      · rintro ⟨c, hc, hprop⟩
        have hnone := List.find?_eq_none.mp hf c hc
        rw [(unsafeChange_iff c).mpr hprop] at hnone
        exact absurd rfl hnone
    | some c =>
      have hmem := List.mem_of_find?_eq_some hf
      have hp := List.find?_some hf
      simp only
      constructor
      · intro _
        exact ⟨c, hmem, (unsafeChange_iff c).mp hp⟩
      · intro _
        trivial
  · intro r hr
    unfold isSchemaChangeSafe at hr
    by_cases hn : n = 0
    · rw [if_pos hn] at hr
      simp at hr
    · rw [if_neg hn] at hr
      cases hf : changes.find? unsafeChange with
      | none =>
        rw [hf] at hr
        simp at hr
      | some c =>
        rw [hf] at hr
        simp only [Option.some.injEq] at hr
        obtain ⟨h1, h2, h3⟩ := (unsafeChange_iff c).mp (List.find?_some hf)
        exact ⟨c, List.mem_of_find?_eq_some hf, h1, h2, h3, hr.symm⟩

/-- The spec's example change list: field `priority` added as required
with no default. -/
def c4changes : List SchemaChange :=
  [{ type := .added, field := "priority", required := true, hasDefault := false }]

/-- Witness for C4 at the spec's example: adding required, defaultless
`priority` is unsafe with 5 records and safe with 0. -/
theorem C4_isSchemaChangeSafe_spec_witness :
    ((isSchemaChangeSafe c4changes 5).safe = false) ∧
    isSchemaChangeSafe c4changes 0 = { safe := true } := by
  constructor
  · exact ((C4_isSchemaChangeSafe_spec c4changes 5).2.1 (by omega)).mpr
      ⟨{ type := .added, field := "priority", required := true, hasDefault := false },
        by simp [c4changes], Or.inl rfl, rfl, rfl⟩
  · exact (C4_isSchemaChangeSafe_spec c4changes 0).1 rfl

/-- An empty old object descriptor (for the C5 evidence). -/
def c5old : Descriptor := .mk (.object []) false false none

/-- A new object descriptor adding field `completed`: boolean, not
optional, with declared default `false` (present and not null). -/
def c5new : Descriptor :=
  .mk (.object [("completed", .mk .boolean false false (some (.bool false)))])
    false false none

/-- Counterexample to C5 as stated: the field `completed` is added with
default annotation `false` — present and not null — yet the reported
entry carries `hasDefault = false`, because the code computes
`Boolean(value.default)` and `false` is falsy. -/
theorem C5_falsy_default_counterexample :
    c5new.kind =
      .object [("completed", .mk .boolean false false (some (.bool false)))] ∧
    detectSchemaChanges c5old c5new =
      [{ type := .added, field := "completed", required := true,
         hasDefault := false }] := by
  constructor
  · rfl
  · simp [detectSchemaChanges, c5old, c5new, Descriptor.kind, keyIn, lookupJs,
      Descriptor.optional, Descriptor.dflt, optTruthy, jsTruthy]

/-- C5 (amended): every `added` or `changed` entry reported by
`detectSchemaChanges` carries `required` equal to the negation of the
field's `optional` annotation, and `hasDefault` equal to the JavaScript
truthiness of the field's `default` annotation — so a falsy declared
default such as `false` or `0` counts as having no default. -/
theorem C5_detectSchemaChanges_annotations (oldD newD : Descriptor)
    (oldSh newSh : List (String × Descriptor))
    (hOld : oldD.kind = .object oldSh) (hNew : newD.kind = .object newSh) :
    ∀ c ∈ detectSchemaChanges oldD newD,
      (c.type = .added ∨ c.type = .changed) →
        ∃ d, (c.field, d) ∈ newSh ∧ c.required = !d.optional ∧
          c.hasDefault = optTruthy d.dflt := by
  intro c hc hty
  unfold detectSchemaChanges at hc
  rw [hOld, hNew] at hc
  simp only [List.mem_append] at hc
  rcases hc with (hc | hc) | hc
  · obtain ⟨kv, hkv, hf⟩ := List.mem_filterMap.mp hc
    by_cases hk : keyIn kv.1 oldSh = true
    · rw [if_pos hk] at hf
      exact absurd hf (by simp)
    · rw [if_neg hk] at hf
      simp only [Option.some.injEq] at hf
      refine ⟨kv.2, ?_, ?_, ?_⟩
      · rw [← hf]
        exact hkv
      · rw [← hf]
      · rw [← hf]
  · obtain ⟨kv, hkv, hf⟩ := List.mem_filterMap.mp hc
    by_cases hk : keyIn kv.1 newSh = true
    · rw [if_pos hk] at hf
      exact absurd hf (by simp)
    · rw [if_neg hk] at hf
      simp only [Option.some.injEq] at hf
      rw [← hf] at hty
      simp at hty
  · obtain ⟨kv, hkv, hf⟩ := List.mem_filterMap.mp hc
    by_cases hk : keyIn kv.1 oldSh = true
    · rw [if_pos hk] at hf
      split at hf
      · split at hf
        · exact absurd hf (by simp)
        · simp only [Option.some.injEq] at hf
          refine ⟨kv.2, ?_, ?_, ?_⟩
          · rw [← hf]
            exact hkv
          · rw [← hf]
          · rw [← hf]
      · exact absurd hf (by simp)
    · rw [if_neg hk] at hf
      exact absurd hf (by simp)

/-- Witness for C5 (amended) at the concrete pair `c5old`, `c5new`: the
reported entry's `hasDefault` is the truthiness of the declared default
`false`. -/
theorem C5_detectSchemaChanges_annotations_witness :
    ∃ d, (("completed", d) ∈
        [("completed", Descriptor.mk .boolean false false (some (.bool false)))]) ∧
      ({ type := ChangeType.added, field := "completed", required := true,
         hasDefault := false } : SchemaChange).required = !d.optional ∧
      ({ type := ChangeType.added, field := "completed", required := true,
         hasDefault := false } : SchemaChange).hasDefault = optTruthy d.dflt :=
  C5_detectSchemaChanges_annotations c5old c5new []
    [("completed", Descriptor.mk .boolean false false (some (.bool false)))]
    rfl rfl
    { type := ChangeType.added, field := "completed", required := true,
      hasDefault := false }
    (by simp [detectSchemaChanges, c5old, c5new, Descriptor.kind, keyIn, lookupJs,
      Descriptor.optional, Descriptor.dflt, optTruthy, jsTruthy])
    (Or.inl rfl)

/-- C8: `createElement` performs no write when it fails.  An unknown
type id yields the type-not-found error with the state — the element
table included — unchanged; a strict-validation failure yields the
validation error with the state unchanged; and a successful result's
state is exactly the old one with the returned fresh-id row appended. -/
theorem C8_createElement_no_write_on_failure (db : DB) (typeId : String)
    (data : List (String × JsValue)) :
    (db.elementTypes.find? (fun t => t.id == typeId) = none →
      createElement db typeId data = (.error (typeNotFoundMsg typeId), db)) ∧
    (∀ t, db.elementTypes.find? (fun t' => t'.id == typeId) = some t →
      (validateElementData data (deserializeZodSchema t.schema) .strict).success
        = false →
      createElement db typeId data =
        (.error (validationFailedMsg
          (validateElementData data (deserializeZodSchema t.schema) .strict).errors),
         db)) ∧
    (∀ e db', createElement db typeId data = (.ok e, db') →
      db'.elements = db.elements ++ [e] ∧ e.id = freshId db ∧ e.typeId = typeId) := by
  refine ⟨?_, ?_, ?_⟩
  · intro hf
    unfold createElement
    rw [hf]
  · intro t hf hv
    unfold createElement
    rw [hf]
    simp only [hv]
    rfl
  · intro e db' hok
    unfold createElement at hok
    cases hf : db.elementTypes.find? (fun t => t.id == typeId) with
    | none =>
      rw [hf] at hok
      simp at hok
    | some t =>
      rw [hf] at hok
      simp only at hok
      by_cases hv : (validateElementData data (deserializeZodSchema t.schema)
          .strict).success = true
      · rw [if_neg (by simp [hv])] at hok
        simp only [Prod.mk.injEq, Except.ok.injEq] at hok
        obtain ⟨he, hdb⟩ := hok
        rw [← hdb, ← he]
        exact ⟨rfl, rfl, rfl⟩
      · rw [if_pos (by simpa using hv)] at hok
        simp at hok


/-- The stored `task` type of the spec's examples: `title` required
string, `completed` boolean with default `false`. -/
def taskDescriptor : Descriptor :=
  .mk (.object [("title", .mk .string false false none),
                ("completed", .mk .boolean false false (some (.bool false)))])
    false false none

/-- Evaluation of the `task` descriptor's deserialization. -/
theorem taskDescriptor_deserialize : deserializeZodSchema taskDescriptor =
    .object [("title", .string),
             ("completed", .withDefault (.bool false) .boolean)] := by
  simp [taskDescriptor, deserializeZodSchema, deserializeBase, deserializeShape]

/-- A store holding only the `task` element type. -/
def c8db : DB :=
  { elements := [], links := [],
    elementTypes := [{ id := "task", schema := taskDescriptor }], linkTypes := [] }

/-- Witness for C8: `createElement` on a missing type id, and on a
payload strict validation rejects, errors with the state unchanged. -/
theorem C8_createElement_no_write_on_failure_witness :
    createElement c8db "missing-type" [("title", .str "Buy milk")] =
      (.error (typeNotFoundMsg "missing-type"), c8db) ∧
    createElement c8db "task" [("title", .num 7)] =
      (.error (validationFailedMsg
        (validateElementData [("title", .num 7)]
          (deserializeZodSchema taskDescriptor) .strict).errors), c8db) := by
  constructor
  · exact (C8_createElement_no_write_on_failure c8db "missing-type"
      [("title", .str "Buy milk")]).1 (by simp [c8db, List.find?])
  · exact (C8_createElement_no_write_on_failure c8db "task"
      [("title", .num 7)]).2.1 { id := "task", schema := taskDescriptor }
      (by simp [c8db, List.find?])
      (by
        rw [taskDescriptor_deserialize]
        simp only [validateElementData]
        exact validateData_task_title7_strict)

/-- An object schema of two optional number fields `a` and `b` (for the
C9 evidence). -/
def abSchemaDescriptor : Descriptor :=
  .mk (.object [("a", .mk .number true false none),
                ("b", .mk .number true false none)]) false false none

/-- Evaluation of the `a`/`b` descriptor's deserialization. -/
theorem abSchemaDescriptor_deserialize : deserializeZodSchema abSchemaDescriptor =
    .object [("a", .optional .number), ("b", .optional .number)] := by
  simp [abSchemaDescriptor, deserializeZodSchema, deserializeBase, deserializeShape]

/-- A store with one element `E1` and one link `L1`, both carrying data
`{a: 1, b: 2}` against the two-optional-field schema. -/
def c9db : DB :=
  { elements := [⟨"E1", "node", .obj [("a", .num 1), ("b", .num 2)]⟩],
    links := [⟨"L1", "E1", "E1", "edge", .obj [("a", .num 1), ("b", .num 2)]⟩],
    elementTypes := [{ id := "node", schema := abSchemaDescriptor }],
    linkTypes := [{ id := "edge", fromType := "node", toType := "node",
                    schema := abSchemaDescriptor }] }

/-- C9: `updateLink` strict-validates and persists the provided payload
by itself — the persisted link data is the validation of `data` alone,
with no merge over the existing data — while `updateElement` validates
and persists the object spread of the partial payload over the existing
(loose-validated) data.  Concretely, updating with `{a: 3}` drops the
stored field `b` from link `L1` but preserves it on element `E1`. -/
theorem C9_updateLink_replaces_updateElement_merges :
    (∀ (db : DB) (id : String) (data : List (String × JsValue)) l' db',
      updateLink db id data = (.ok l', db') →
      ∃ existing t, getLink db id = some existing ∧
        db.linkTypes.find? (fun x => x.id == existing.linkTypeId) = some t ∧
        l'.data = (validateLinkData data (deserializeZodSchema t.schema)
          .strict).data.getD .undef) ∧
    (∀ (db : DB) (id : String) (data : List (String × JsValue)) e' db',
      updateElement db id data = (.ok e', db') →
      ∃ existing t, getElement db id = some existing ∧
        db.elementTypes.find? (fun x => x.id == existing.typeId) = some t ∧
        e'.data = (validateElementData (jsSpread (jsEntries existing.data) data)
          (deserializeZodSchema t.schema) .strict).data.getD .undef) ∧
    updateLink c9db "L1" [("a", .num 3)] =
      (.ok ⟨"L1", "E1", "E1", "edge", .obj [("a", .num 3)]⟩,
       { c9db with links := [⟨"L1", "E1", "E1", "edge", .obj [("a", .num 3)]⟩] }) ∧
    updateElement c9db "E1" [("a", .num 3)] =
      (.ok ⟨"E1", "node", .obj [("a", .num 3), ("b", .num 2)]⟩,
       { c9db with elements :=
           [⟨"E1", "node", .obj [("a", .num 3), ("b", .num 2)]⟩] }) := by
  refine ⟨?_, ?_, ?_, ?_⟩
  · intro db id data l' db' hok
    unfold updateLink at hok
    cases hg : getLink db id with
    | none =>
      rw [hg] at hok
      simp at hok
    | some existing =>
      rw [hg] at hok
      simp only at hok
      cases ht : db.linkTypes.find? (fun x => x.id == existing.linkTypeId) with
      | none =>
        rw [ht] at hok
        simp at hok
      | some t =>
        rw [ht] at hok
        simp only at hok
        by_cases hv : (validateLinkData data (deserializeZodSchema t.schema)
            .strict).success = true
        · rw [if_neg (by simp [hv])] at hok
          simp only [Prod.mk.injEq, Except.ok.injEq] at hok
          refine ⟨existing, t, rfl, ht, ?_⟩
          rw [← hok.1]
        · rw [if_pos (by simpa using hv)] at hok
          simp at hok
  · intro db id data e' db' hok
    unfold updateElement at hok
    cases hg : getElement db id with
    | none =>
      rw [hg] at hok
      simp at hok
    | some existing =>
      rw [hg] at hok
      simp only at hok
      cases ht : db.elementTypes.find? (fun x => x.id == existing.typeId) with
      | none =>
        rw [ht] at hok
        simp at hok
      | some t =>
        rw [ht] at hok
        simp only at hok
        by_cases hv : (validateElementData (jsSpread (jsEntries existing.data) data)
            (deserializeZodSchema t.schema) .strict).success = true
        · rw [if_neg (by simp [hv])] at hok
          simp only [Prod.mk.injEq, Except.ok.injEq] at hok
          refine ⟨existing, t, rfl, ht, ?_⟩
          rw [← hok.1]
        · rw [if_pos (by simpa using hv)] at hok
          simp at hok
  · simp [updateLink, getLink, c9db, abSchemaDescriptor_deserialize,
      validateLinkData, jsEntries, List.find?,
      validateData_ab12_loose, validateData_a3_strict]
  · simp [updateElement, getElement, c9db, abSchemaDescriptor_deserialize,
      validateElementData, jsEntries, jsSpread, lookupJs, keyIn, List.find?,
      validateData_ab12_loose, validateData_a3b2_strict]

/-- The empty object descriptor (for the C6 and C7 evidence). -/
def emptyObjDescriptor : Descriptor := .mk (.object []) false false none

/-- Evaluation of the empty object descriptor's deserialization. -/
theorem emptyObjDescriptor_deserialize :
    deserializeZodSchema emptyObjDescriptor = .object [] := by
  simp [emptyObjDescriptor, deserializeZodSchema, deserializeBase, deserializeShape]

/-- A store holding the `node` element type and the `edge` link type,
both with the empty object schema, and no rows yet. -/
def c6types : DB :=
  { elements := [], links := [],
    elementTypes := [{ id := "node", schema := emptyObjDescriptor }],
    linkTypes := [{ id := "edge", fromType := "node", toType := "node",
                    schema := emptyObjDescriptor }] }

/-- The state after creating element A (id `id-0`). -/
def c6dbA : DB := (createElement c6types "node" []).2

/-- The state after also creating element B (id `id-1`). -/
def c6dbAB : DB := (createElement c6dbA "node" []).2

/-- The state after also creating the link A→B (id `id-2`). -/
def c6dbL : DB := (createLink c6dbAB "id-0" "id-1" "edge" (some [])).2

/-- The state after finally deleting element B. -/
def c6final : DB := deleteElement c6dbL "id-1"

/-- Evaluation of the first create. -/
theorem c6dbA_eval : c6dbA =
    { elements := [⟨"id-0", "node", .obj []⟩], links := [],
      elementTypes := [{ id := "node", schema := emptyObjDescriptor }],
      linkTypes := [{ id := "edge", fromType := "node", toType := "node",
                      schema := emptyObjDescriptor }],
      nextId := 1 } := by
  simp [c6dbA, c6types, createElement, freshId, emptyObjDescriptor_deserialize,
    validateElementData, validateData_empty_strict, List.find?]
  decide

/-- Evaluation of the second create. -/
theorem c6dbAB_eval : c6dbAB =
    { elements := [⟨"id-0", "node", .obj []⟩, ⟨"id-1", "node", .obj []⟩],
      links := [],
      elementTypes := [{ id := "node", schema := emptyObjDescriptor }],
      linkTypes := [{ id := "edge", fromType := "node", toType := "node",
                      schema := emptyObjDescriptor }],
      nextId := 2 } := by
  rw [c6dbAB, c6dbA_eval]
  simp [createElement, freshId, emptyObjDescriptor_deserialize,
    validateElementData, validateData_empty_strict, List.find?]
  decide

/-- Evaluation of the link create. -/
theorem c6dbL_eval : c6dbL =
    { elements := [⟨"id-0", "node", .obj []⟩, ⟨"id-1", "node", .obj []⟩],
      links := [⟨"id-2", "id-0", "id-1", "edge", .obj []⟩],
      elementTypes := [{ id := "node", schema := emptyObjDescriptor }],
      linkTypes := [{ id := "edge", fromType := "node", toType := "node",
                      schema := emptyObjDescriptor }],
      nextId := 3 } := by
  rw [c6dbL, c6dbAB_eval]
  simp [createLink, freshId, emptyObjDescriptor_deserialize,
    validateLinkData, validateData_empty_strict, List.find?]
  decide

/-- C6 (code-bug evidence): after `createLink(fromId=id-0, toId=id-1,
linkTypeId=edge, {})` and `deleteElement("id-1")`, element B is gone,
yet the link from A survives: `findLinksFrom("id-0")` still returns it,
because `deleteElement` deletes only the element row and the backing
schema declares no foreign keys and no cascade. -/
theorem C6_deleteElement_does_not_cascade :
    getElement c6final "id-1" = none ∧
    findLinksFrom c6final "id-0" none =
      [⟨"id-2", "id-0", "id-1", "edge", .obj []⟩] ∧
    findLinksFrom c6final "id-0" none ≠ [] := by
  have hfinal : c6final =
      { elements := [⟨"id-0", "node", .obj []⟩],
        links := [⟨"id-2", "id-0", "id-1", "edge", .obj []⟩],
        elementTypes := [{ id := "node", schema := emptyObjDescriptor }],
        linkTypes := [{ id := "edge", fromType := "node", toType := "node",
                        schema := emptyObjDescriptor }],
        nextId := 3 } := by
    rw [c6final, c6dbL_eval]
    simp [deleteElement]
  rw [hfinal]
  refine ⟨?_, ?_, ?_⟩
  · simp [getElement, List.find?]
  · simp [findLinksFrom, looseValidateLink, emptyObjDescriptor_deserialize,
      validateLinkData, jsEntries, validateData_empty_loose,
      List.find?, List.filter]
  · simp [findLinksFrom, looseValidateLink, emptyObjDescriptor_deserialize,
      validateLinkData, jsEntries, validateData_empty_loose,
      List.find?, List.filter]

/-- Unfolding of the traversal loop when the head is skipped. -/
theorem traverseLoop_cons_skip (db : DB) (ltid : Option String) (maxDepth : Nat)
    (item : QueueItem) (rest : List QueueItem) (visited : List String)
    (h : (visited.contains item.elementId || maxDepth < item.depth) = true) :
    traverseLoop db ltid maxDepth (item :: rest) visited =
      traverseLoop db ltid maxDepth rest visited := by
  rw [traverseLoop, dif_pos h]

/-- Unfolding of the traversal loop when the head is unskipped but
unresolvable. -/
theorem traverseLoop_cons_none (db : DB) (ltid : Option String) (maxDepth : Nat)
    (item : QueueItem) (rest : List QueueItem) (visited : List String)
    (h : ¬(visited.contains item.elementId || maxDepth < item.depth) = true)
    (hG : getElement db item.elementId = none) :
    traverseLoop db ltid maxDepth (item :: rest) visited =
      traverseLoop db ltid maxDepth rest (item.elementId :: visited) := by
  rw [traverseLoop, dif_neg h]
  split
  · rfl
  · rename_i el hG2
    rw [hG] at hG2
    cases hG2

/-- Unfolding of the traversal loop when the head resolves and is
emitted. -/
theorem traverseLoop_cons_some (db : DB) (ltid : Option String) (maxDepth : Nat)
    (item : QueueItem) (rest : List QueueItem) (visited : List String)
    (el : StoredElement)
    (h : ¬(visited.contains item.elementId || maxDepth < item.depth) = true)
    (hG : getElement db item.elementId = some el) :
    traverseLoop db ltid maxDepth (item :: rest) visited =
      ⟨el, item.depth, item.path⟩ ::
        traverseLoop db ltid maxDepth
          (rest ++ traverseExpand db ltid maxDepth item (item.elementId :: visited))
          (item.elementId :: visited) := by
  rw [traverseLoop, dif_neg h]
  split
  · rename_i hG2
    rw [hG] at hG2
    cases hG2
  · rename_i el2 hG2
    rw [hG] at hG2
    have : el = el2 := by injection hG2
    rw [this]

/-- The unskipped head was not in the visited set. -/
theorem not_contains_of_unskipped {visited : List String} {item : QueueItem}
    {maxDepth : Nat}
    (h : ¬(visited.contains item.elementId || maxDepth < item.depth) = true) :
    visited.contains item.elementId = false := by
  rcases Bool.eq_false_or_eq_true (visited.contains item.elementId) with hc | hc
  · exfalso
    apply h
    rw [hc]
    exact Bool.true_or _
  · exact hc

/-- The traversal emits each element id at most once, and only ids not
already in the visited set (the invariant behind the at-most-once
guarantee). -/
theorem traverseLoop_nodup (db : DB) (ltid : Option String) (maxDepth : Nat)
    (queue : List QueueItem) (visited : List String) :
    ((traverseLoop db ltid maxDepth queue visited).map
        (fun r => r.element.id)).Nodup ∧
    ∀ r ∈ traverseLoop db ltid maxDepth queue visited,
      r.element.id ∉ visited := by
  induction queue, visited using traverseLoop.induct db ltid maxDepth with
  | case1 visited => simp [traverseLoop]
  | case2 item rest visited hskip ih =>
    rw [traverseLoop_cons_skip db ltid maxDepth item rest visited hskip]
    exact ih
  | case3 item rest visited hskip hG ih =>
    rw [traverseLoop_cons_none db ltid maxDepth item rest visited hskip hG]
    obtain ⟨ihN, ihF⟩ := ih
    refine ⟨ihN, fun r hr hmem => ihF r hr (List.mem_cons_of_mem _ hmem)⟩
  | case4 item rest visited hskip el hG ih =>
    rw [traverseLoop_cons_some db ltid maxDepth item rest visited el hskip hG]
    obtain ⟨ihN, ihF⟩ := ih
    have hid : el.id = item.elementId := getElement_id hG
    constructor
    · simp only [List.map_cons, List.nodup_cons]
      refine ⟨?_, ihN⟩
      intro hmem
      obtain ⟨r, hr, hre⟩ := List.mem_map.mp hmem
      have hfresh := ihF r hr
      rw [hre, hid] at hfresh
      exact hfresh (List.mem_cons_self _ _)
    · intro r hr
      rcases List.mem_cons.mp hr with heq | hr
      · have hnc := not_contains_of_unskipped hskip
        have : item.elementId ∉ visited := by simpa using hnc
        rw [heq]
        simpa [hid] using this
      · exact fun hmem => ihF r hr (List.mem_cons_of_mem _ hmem)

/-- The traversal never emits an entry deeper than `maxDepth`: the skip
guard filters any deeper item before emission. -/
theorem traverseLoop_depth_le (db : DB) (ltid : Option String) (maxDepth : Nat)
    (queue : List QueueItem) (visited : List String) :
    ∀ r ∈ traverseLoop db ltid maxDepth queue visited, r.depth ≤ maxDepth := by
  induction queue, visited using traverseLoop.induct db ltid maxDepth with
  | case1 visited => simp [traverseLoop]
  | case2 item rest visited hskip ih =>
    rw [traverseLoop_cons_skip db ltid maxDepth item rest visited hskip]
    exact ih
  | case3 item rest visited hskip hG ih =>
    rw [traverseLoop_cons_none db ltid maxDepth item rest visited hskip hG]
    exact ih
  | case4 item rest visited hskip el hG ih =>
    rw [traverseLoop_cons_some db ltid maxDepth item rest visited el hskip hG]
    intro r hr
    rcases List.mem_cons.mp hr with heq | hr
    · have : ¬(maxDepth < item.depth) := by
        intro hlt
        exact hskip (by simp [hlt])
      rw [heq]
      exact Nat.le_of_not_lt this
    · exact ih r hr

/-- A two-element store whose single link forms the cycle A→B→A under
the traversal's bidirectional neighbor lookup (no type rows needed:
reads return rows as stored). -/
def c7db : DB :=
  { elements := [⟨"A", "node", .obj []⟩, ⟨"B", "node", .obj []⟩],
    links := [⟨"L", "A", "B", "edge", .obj []⟩],
    elementTypes := [], linkTypes := [] }

/-- C7: on every finite store (cyclic graphs included) `traverse`
terminates (it is a total function, by the well-founded measure of
`traverseLoop`), each element id appears in its result at most once, and
no entry's depth exceeds `maxDepth`; on the concrete two-element cycle,
`traverse("A", maxDepth=2)` visits A and B exactly once, each at the
depth it was first reached, and stops. -/
theorem C7_traverse_spec (db : DB) (start : String) (ltid : Option String)
    (maxDepth : Nat) :
    ((traverse db start ltid maxDepth).map (fun r => r.element.id)).Nodup ∧
    (∀ r ∈ traverse db start ltid maxDepth, r.depth ≤ maxDepth) ∧
    traverse c7db "A" none 2 =
      [⟨⟨"A", "node", .obj []⟩, 0, ["A"]⟩,
       ⟨⟨"B", "node", .obj []⟩, 1, ["A", "B"]⟩] := by
  refine ⟨(traverseLoop_nodup db ltid maxDepth _ _).1,
    traverseLoop_depth_le db ltid maxDepth _ _, ?_⟩
  show traverseLoop c7db none 2 [⟨"A", 0, ["A"]⟩] [] =
    [⟨⟨"A", "node", .obj []⟩, 0, ["A"]⟩, ⟨⟨"B", "node", .obj []⟩, 1, ["A", "B"]⟩]
  simp [traverseLoop, traverseExpand, getConnectedElements, getAllLinks,
    findLinksFrom, findLinksTo, looseValidateLink, getElement, c7db,
    List.find?, List.filter]

/-- Witness for C9: at the concrete store, the updated link `L1`'s
persisted data is the strict validation of the payload `{a: 3}` alone. -/
theorem C9_updateLink_replaces_updateElement_merges_witness :
    ∃ existing t, getLink c9db "L1" = some existing ∧
      c9db.linkTypes.find? (fun x => x.id == existing.linkTypeId) = some t ∧
      (⟨"L1", "E1", "E1", "edge", .obj [("a", .num 3)]⟩ : StoredLink).data =
        (validateLinkData [("a", .num 3)] (deserializeZodSchema t.schema)
          .strict).data.getD .undef :=
  C9_updateLink_replaces_updateElement_merges.1 c9db "L1" [("a", .num 3)]
    ⟨"L1", "E1", "E1", "edge", .obj [("a", .num 3)]⟩
    { c9db with links := [⟨"L1", "E1", "E1", "edge", .obj [("a", .num 3)]⟩] }
    C9_updateLink_replaces_updateElement_merges.2.2.1
